import Mathlib

/-!
# Orthoimage alignment (`src/asp/Tools/aligndem.cc`)

A shallow embedding of the alignment tool: the duplicate-correspondence filter
`remove_duplicates`, the disk-cached matching stage `match_orthoimages`, and the part of
`main` that projects the matches to geodetic coordinates and runs the robust estimator.

Conventions of the embedding.

* `std::vector` is `List`; an index read outside the bounds of a vector (undefined
  behaviour in C++) makes the embedded function return `none`.
* The coordinate type of `vw::ip::InterestPoint` and its `operator==` are declared
  outside this repository, so they are the parameters `F` and `feq`. Nothing is assumed
  about `feq`; in particular it need not be reflexive, as IEEE comparison is not on NaN.
* Vectors hold fewer than `2 ^ 32` elements, so the `unsigned` loop counters never wrap.
* Functions with effects are state-passing functions over the filesystem that also return
  the list of effects they issued (`Run`). A write to the filesystem always succeeds; a
  read of a missing or malformed file throws.
* Collaborators from Vision Workbench (detector, matcher, serialisation, georeference,
  RANSAC search) are fields of `Env` and `MainEnv`.
-/

set_option autoImplicit false

namespace AlignDem

/-! ## Data model -/

/-- An interest point: image location `x`, `y` and the remaining fields, which
`aligndem.cc` never inspects. -/
structure InterestPoint (F : Type) where
  x : F
  y : F
  descriptor : List F
deriving DecidableEq

/-! ## `remove_duplicates` (aligndem.cc, lines 73-94) -/

section Dedup
variable {F : Type} (feq : F → F → Bool)

/-- Body of the inner loop, lines 80-84: one comparison of entry `i` with entry `j`.
The operators `&&` and `||` short-circuit, so `ip2` is read only when `i != j` and the
points of `ip1` differ. -/
def inner_step (ip1 ip2 : List (InterestPoint F)) (i : Nat) (bad_entry : Bool) (j : Nat) :
    Option Bool :=
  if i ≠ j then do
    let a_i ← ip1[i]?
    let a_j ← ip1[j]?
    if feq a_i.x a_j.x && feq a_i.y a_j.y then
      pure true
    else do
      let b_i ← ip2[i]?
      let b_j ← ip2[j]?
      if feq b_i.x b_j.x && feq b_i.y b_j.y then pure true else pure bad_entry
  else
    pure bad_entry

/-- Body of the outer loop, lines 78-89: scan all `j`, then push entry `i` unless it
was flagged. -/
def outer_step (ip1 ip2 : List (InterestPoint F))
    (acc : List (InterestPoint F) × List (InterestPoint F)) (i : Nat) :
    Option (List (InterestPoint F) × List (InterestPoint F)) := do
  let bad_entry ← (List.range ip1.length).foldlM (inner_step feq ip1 ip2 i) false
  if !bad_entry then do
    let a ← ip1[i]?
    let b ← ip2[i]?
    pure (acc.1 ++ [a], acc.2 ++ [b])
  else
    pure acc

/-- The function `remove_duplicates`: the new contents of `ip1` and `ip2`. -/
def remove_duplicates (ip1 ip2 : List (InterestPoint F)) :
    Option (List (InterestPoint F) × List (InterestPoint F)) :=
  (List.range ip1.length).foldlM (outer_step feq ip1 ip2) ([], [])

/-! ### The filter as the specification words it -/

/-- Two interest points coincide exactly: equal `x` and equal `y`. -/
def same_xy (a b : InterestPoint F) : Bool := feq a.x b.x && feq a.y b.y

/-- Entries `i` and `j` coincide on the left or on the right. -/
def coincide (ip1 ip2 : List (InterestPoint F)) (i j : Nat) : Bool :=
  match ip1[i]?, ip1[j]?, ip2[i]?, ip2[j]? with
  | some a, some b, some c, some d => same_xy feq a b || same_xy feq c d
  | _, _, _, _ => false

/-- Index `i` is marked bad when some other index coincides with it. -/
def marked_bad (ip1 ip2 : List (InterestPoint F)) (i : Nat) : Bool :=
  (List.range ip1.length).any (fun j => decide (j ≠ i) && coincide feq ip1 ip2 i j)

/-- The entries at the indices never marked bad, in increasing index order. -/
def dedup_spec (ip1 ip2 : List (InterestPoint F)) :
    List (InterestPoint F) × List (InterestPoint F) :=
  ((List.range ip1.length).filterMap
      (fun i => if marked_bad feq ip1 ip2 i then none else ip1[i]?),
   (List.range ip1.length).filterMap
      (fun i => if marked_bad feq ip1 ip2 i then none else ip2[i]?))

/-- No two distinct positions of the list hold points with the same `(x, y)`. -/
def no_collision (l : List (InterestPoint F)) : Prop :=
  ∀ (i : Nat) (hi : i < l.length) (j : Nat) (hj : j < l.length),
    i ≠ j → same_xy feq l[i] l[j] = false

instance (l : List (InterestPoint F)) : Decidable (no_collision feq l) := by
  unfold no_collision
  infer_instance

end Dedup

/-! ## Paths and the names of the cached artifacts (lines 104-107) -/

abbrev Path := List Char

/-- Last element of a path: the characters after the final separator
(`boost::filesystem::path::leaf`). -/
def leaf (p : Path) : Path :=
  (p.reverse.takeWhile (fun c => c ≠ '/')).reverse

/-- Everything before the last element, without the trailing separator unless it is
the root directory (`boost::filesystem::path::branch_path`). -/
def branch_path (p : Path) : Path :=
  let d := (p.reverse.dropWhile (fun c => c ≠ '/')).reverse
  if d = ['/'] then d else d.dropLast

/-- The leaf up to, not including, its last dot; the whole leaf when it has no dot
(`boost::filesystem::basename`, that is `leaf.substr(0, leaf.rfind('.'))`). -/
def basename (p : Path) : Path :=
  let l := leaf p
  if '.' ∈ l then ((l.reverse.dropWhile (fun c => c ≠ '.')).drop 1).reverse else l

/-- Path concatenation `a / b` (`boost::filesystem::path::operator/`): a separator is
inserted unless `a` is empty or already ends with one. -/
def path_append (a b : Path) : Path :=
  if a = [] then b
  else if a.getLast? = some '/' then a ++ b
  else a ++ '/' :: b

/-- Replace the extension of the leaf
(`boost::filesystem::change_extension`, that is `branch_path() / (basename + ext)`). -/
def change_extension (p : Path) (new_extension : Path) : Path :=
  path_append (branch_path p) (basename p ++ new_extension)

/-- Line 105: `change_extension(left_image_path, ".vwip")`. -/
def left_ip_file_of (left_image_name : Path) : Path :=
  change_extension left_image_name ['.', 'v', 'w', 'i', 'p']

/-- Line 106: `change_extension(right_image_path, ".vwip")`. -/
def right_ip_file_of (right_image_name : Path) : Path :=
  change_extension right_image_name ['.', 'v', 'w', 'i', 'p']

/-- Line 107: `branch_path(left) / (basename(left) + "__" + basename(right) + ".match")`. -/
def match_file_of (left_image_name right_image_name : Path) : Path :=
  path_append (branch_path left_image_name)
    (basename left_image_name ++ ['_', '_'] ++ basename right_image_name
      ++ ['.', 'm', 'a', 't', 'c', 'h'])

/-! ## Effects: filesystem, console and collaborator calls -/

/-- Ways a run can abort. `OutOfBounds` stands for an out-of-range vector read. -/
inductive PipelineError
  | SourceUnreadable
  | OutOfBounds
  | InsufficientCorrespondences
  | NoConsensus
deriving DecidableEq

/-- The lines written to `vw_out`, one constructor per output statement. -/
inductive Msg
  | finding_interest_points
  | using_cached_match_file
  | num_matches (n : Nat)
  | locating_interest_points
  | processing (image : Path)
  | located (n : Nat)
  | generating_descriptors
  | done
  | caching_interest_points (left_ip_file right_ip_file : Path)
  | using_cached_ips
  | matching_interest_points
  | putative_matches (n : Nat)
  | caching_matches (match_file : Path)
  | rejecting_outliers
  | ransac_result
  | num_inliers (n : Nat)
deriving DecidableEq

/-- Observable effects, in the order they are issued. -/
inductive Event
  | print (m : Msg)
  | open_image (p : Path)
  | detect (p : Path)
  | describe (p : Path)
  | run_matcher
  | read_file (p : Path)
  | write_file (p : Path)
  | open_resource (p : Path)
  | run_ransac
deriving DecidableEq

/-- A call of the image decoder, the detector, the descriptor generator or the matcher. -/
def Event.is_collaborator_call : Event → Bool
  | .open_image _ => true
  | .detect _ => true
  | .describe _ => true
  | .run_matcher => true
  | _ => false

/-- A call of the image decoder, the detector or the descriptor generator. -/
def Event.is_detection : Event → Bool
  | .open_image _ => true
  | .detect _ => true
  | .describe _ => true
  | _ => false

/-- A write to the filesystem. -/
def Event.is_write : Event → Bool
  | .write_file _ => true
  | _ => false

/-- The two final output lines of `main`: the transform and the inlier count. -/
def Event.is_report : Event → Bool
  | .print .ransac_result => true
  | .print (.num_inliers _) => true
  | _ => false

/-- The filesystem: the content of each existing file. -/
abbrev Files (B : Type) := Path → Option B

/-- The filesystem after file `p` has been written with content `b`. -/
def Files.write {B : Type} (fs : Files B) (p : Path) (b : B) : Files B :=
  fun q => if q = p then some b else fs q

/-- A computation over the filesystem: the result or the exception thrown, the
filesystem afterwards, and the effects issued, in order. -/
def Run (B α : Type) := Files B → Except PipelineError α × Files B × List Event

section RunOps
variable {B α β : Type}

def Run.pure (a : α) : Run B α := fun fs => (.ok a, fs, [])

def Run.bind (m : Run B α) (f : α → Run B β) : Run B β := fun fs =>
  match m fs with
  | (.ok a, fs1, t1) =>
    match f a fs1 with
    | (r, fs2, t2) => (r, fs2, t1 ++ t2)
  | (.error e, fs1, t1) => (.error e, fs1, t1)

instance : Monad (Run B) where
  pure := Run.pure
  bind := Run.bind

def emit (e : Event) : Run B Unit := fun fs => (.ok (), fs, [e])

def throw_error (e : PipelineError) : Run B α := fun fs => (.error e, fs, [])

def or_throw (e : PipelineError) : Option α → Run B α
  | some a => Run.pure a
  | none => throw_error e

def of_except : Except PipelineError α → Run B α
  | .ok a => Run.pure a
  | .error e => throw_error e

/-- The call `fs::exists(p)`. -/
def fs_exists (p : Path) : Run B Bool := fun fs => (.ok (fs p).isSome, fs, [])

def read_file (p : Path) : Run B B := fun fs =>
  match fs p with
  | some b => (.ok b, fs, [Event.read_file p])
  | none => (.error .SourceUnreadable, fs, [Event.read_file p])

def write_file (p : Path) (b : B) : Run B Unit := fun fs =>
  (.ok (), fs.write p b, [Event.write_file p])

/-- Every effect a computation can issue satisfies `P`, whatever the filesystem. -/
def Run.emits_only (P : Event → Prop) (m : Run B α) : Prop :=
  ∀ (fs : Files B) (e : Event), e ∈ (m fs).2.2 → P e

end RunOps

/-! ## `match_orthoimages` (aligndem.cc, lines 96-170) -/

/-- The collaborators of `match_orthoimages`; `B` is the type of file contents. -/
structure Env (F B : Type) where
  /-- Whether `DiskImageView<PixelGray<float32> >` can be constructed over a file. -/
  image_readable : B → Bool
  /-- The function `detect_interest_points` with a scaled LoG detector of the given size. -/
  detect_interest_points : B → Nat → List (InterestPoint F)
  /-- The class `PatchDescriptorGenerator`, which fills in the descriptors. -/
  descriptor : B → List (InterestPoint F) → List (InterestPoint F)
  /-- The class `InterestPointMatcher<L2NormMetric,NullConstraint>` built with a threshold. -/
  matcher : ℚ → List (InterestPoint F) → List (InterestPoint F) →
    List (InterestPoint F) × List (InterestPoint F)
  write_binary_ip_file : List (InterestPoint F) → B
  read_binary_ip_file : B → Option (List (InterestPoint F))
  write_binary_match_file : List (InterestPoint F) → List (InterestPoint F) → B
  read_binary_match_file : B → Option (List (InterestPoint F) × List (InterestPoint F))

section Match
variable {F B : Type} (feq : F → F → Bool) (E : Env F B)

/-- Construction of a `DiskImageView` over the named file (lines 124-125). -/
def open_image (p : Path) : Run B B := fun fs =>
  match fs p with
  | some b =>
    if E.image_readable b then (.ok b, fs, [Event.open_image p])
    else (.error .SourceUnreadable, fs, [Event.open_image p])
  | none => (.error .SourceUnreadable, fs, [Event.open_image p])

/-- The function `match_orthoimages`; the result is the final content of the output
parameters `matched_ip1`, `matched_ip2`. -/
def match_orthoimages (left_image_name right_image_name : Path) :
    Run B (List (InterestPoint F) × List (InterestPoint F)) := do
  emit (.print .finding_interest_points)
  let left_ip_file := left_ip_file_of left_image_name
  let right_ip_file := right_ip_file_of right_image_name
  let match_file := match_file_of left_image_name right_image_name
  if (← fs_exists match_file) then
    emit (.print .using_cached_match_file)
    let b ← read_file match_file
    let (matched_ip1, matched_ip2) ← or_throw .SourceUnreadable (E.read_binary_match_file b)
    emit (.print (.num_matches matched_ip1.length))
    pure (matched_ip1, matched_ip2)
  else
    if (!(← fs_exists left_ip_file) || !(← fs_exists right_ip_file)) then
      emit (.print .locating_interest_points)
      let left_disk_image ← open_image E left_image_name
      let right_disk_image ← open_image E right_image_name
      emit (.print (.processing left_image_name))
      emit (.detect left_image_name)
      let ip1 := E.detect_interest_points left_disk_image 500
      emit (.print (.located ip1.length))
      emit (.print (.processing right_image_name))
      emit (.detect right_image_name)
      let ip2 := E.detect_interest_points right_disk_image 500
      emit (.print (.located ip2.length))
      emit (.print .generating_descriptors)
      emit (.describe left_image_name)
      let ip1 := E.descriptor left_disk_image ip1
      emit (.describe right_image_name)
      let ip2 := E.descriptor right_disk_image ip2
      emit (.print .done)
      emit (.print (.caching_interest_points left_ip_file right_ip_file))
      write_file left_ip_file (E.write_binary_ip_file ip1)
      write_file right_ip_file (E.write_binary_ip_file ip2)
    emit (.print .using_cached_ips)
    let ip1_copy ← or_throw .SourceUnreadable (E.read_binary_ip_file (← read_file left_ip_file))
    let ip2_copy ← or_throw .SourceUnreadable (E.read_binary_ip_file (← read_file right_ip_file))
    emit (.print .matching_interest_points)
    emit .run_matcher
    let (matched_ip1, matched_ip2) := E.matcher (8 / 10) ip1_copy ip2_copy
    let (matched_ip1, matched_ip2) ←
      or_throw .OutOfBounds (remove_duplicates feq matched_ip1 matched_ip2)
    emit (.print (.putative_matches matched_ip1.length))
    emit (.print (.caching_matches match_file))
    write_file match_file (E.write_binary_match_file matched_ip1 matched_ip2)
    pure (matched_ip1, matched_ip2)

/-! ### The three blocks of `match_orthoimages`, named for the proofs -/

/-- Lines 112-114. -/
def use_cached_match_file (match_file : Path) :
    Run B (List (InterestPoint F) × List (InterestPoint F)) := do
  emit (.print .using_cached_match_file)
  let b ← read_file match_file
  let (matched_ip1, matched_ip2) ← or_throw .SourceUnreadable (E.read_binary_match_file b)
  emit (.print (.num_matches matched_ip1.length))
  pure (matched_ip1, matched_ip2)

/-- Lines 122-148. -/
def locate_interest_points (left_image_name right_image_name : Path) : Run B Unit := do
  emit (.print .locating_interest_points)
  let left_disk_image ← open_image E left_image_name
  let right_disk_image ← open_image E right_image_name
  emit (.print (.processing left_image_name))
  emit (.detect left_image_name)
  let ip1 := E.detect_interest_points left_disk_image 500
  emit (.print (.located ip1.length))
  emit (.print (.processing right_image_name))
  emit (.detect right_image_name)
  let ip2 := E.detect_interest_points right_disk_image 500
  emit (.print (.located ip2.length))
  emit (.print .generating_descriptors)
  emit (.describe left_image_name)
  let ip1 := E.descriptor left_disk_image ip1
  emit (.describe right_image_name)
  let ip2 := E.descriptor right_disk_image ip2
  emit (.print .done)
  emit (.print (.caching_interest_points (left_ip_file_of left_image_name)
    (right_ip_file_of right_image_name)))
  write_file (left_ip_file_of left_image_name) (E.write_binary_ip_file ip1)
  write_file (right_ip_file_of right_image_name) (E.write_binary_ip_file ip2)

/-- Lines 152-167. -/
def match_cached_ips (left_image_name right_image_name : Path) :
    Run B (List (InterestPoint F) × List (InterestPoint F)) := do
  emit (.print .using_cached_ips)
  let ip1_copy ← or_throw .SourceUnreadable
    (E.read_binary_ip_file (← read_file (left_ip_file_of left_image_name)))
  let ip2_copy ← or_throw .SourceUnreadable
    (E.read_binary_ip_file (← read_file (right_ip_file_of right_image_name)))
  emit (.print .matching_interest_points)
  emit .run_matcher
  let (matched_ip1, matched_ip2) := E.matcher (8 / 10) ip1_copy ip2_copy
  let (matched_ip1, matched_ip2) ←
    or_throw .OutOfBounds (remove_duplicates feq matched_ip1 matched_ip2)
  emit (.print (.putative_matches matched_ip1.length))
  emit (.print (.caching_matches (match_file_of left_image_name right_image_name)))
  write_file (match_file_of left_image_name right_image_name)
    (E.write_binary_match_file matched_ip1 matched_ip2)
  pure (matched_ip1, matched_ip2)

end Match

/-! ## `main` from line 207 on (the options have been parsed) -/

/-- The two maps of a `GeoReference` that `main` uses. -/
structure GeoReference (R : Type) where
  pixel_to_point : R × R → R × R
  point_to_lonlat : R × R → R × R

/-- The further collaborators of `main`: `R` is `double`, `T` is `Matrix<double>`. -/
structure MainEnv (F B R T : Type) where
  /-- The function `read_georeference` applied to an opened `DiskImageResourceGDAL`. -/
  read_georeference : B → GeoReference R
  /-- The conversion of an interest-point coordinate to `double`. -/
  to_double : F → R
  /-- The randomised search of the estimator on a valid input, with its inlier threshold. -/
  ransac_search : ℚ → List (R × R × R) → List (R × R × R) → Option T
  /-- The method `inlier_indices` of the estimator. -/
  inlier_indices : T → List (R × R × R) → List (R × R × R) → List Nat

/-- Modelled from the spec: the robust affine estimator
`math::RandomSampleConsensus::operator()` is called at line 237 but defined outside
`src/`. The specification (section 4.5) requires `len(pointsA) == len(pointsB) >= 3` and
makes fewer points a fatal `InsufficientCorrespondences`; a search that finds no supported
transform fails with `NoConsensus`. -/
def ransac {R T : Type} (search : ℚ → List (R × R × R) → List (R × R × R) → Option T)
    (threshold : ℚ) (pointsA pointsB : List (R × R × R)) : Except PipelineError T :=
  if pointsA.length = pointsB.length ∧ 3 ≤ pointsA.length then
    match search threshold pointsA pointsB with
    | some fitted => .ok fitted
    | none => .error .NoConsensus
  else
    .error .InsufficientCorrespondences

section Main
variable {F B R T : Type} [One R] (feq : F → F → Bool) (E : Env F B) (M : MainEnv F B R T)

/-- Body of the loop at lines 222-231: project entry `i` of both sides and push the
homogeneous points. -/
def main_loop_step (ortho1_georef ortho2_georef : GeoReference R)
    (matched_ip1 matched_ip2 : List (InterestPoint F))
    (acc : List (R × R × R) × List (R × R × R)) (i : Nat) :
    Option (List (R × R × R) × List (R × R × R)) := do
  let p1 ← matched_ip1[i]?
  let p2 ← matched_ip2[i]?
  let loc1 := ortho1_georef.pixel_to_point (M.to_double p1.x, M.to_double p1.y)
  let loc2 := ortho2_georef.pixel_to_point (M.to_double p2.x, M.to_double p2.y)
  let loc1 := ortho1_georef.point_to_lonlat loc1
  let loc2 := ortho2_georef.point_to_lonlat loc2
  pure (acc.1 ++ [(loc1.1, loc1.2, 1)], acc.2 ++ [(loc2.1, loc2.2, 1)])

/-- The loop at lines 222-231: the final `ransac_ip1`, `ransac_ip2`. -/
def main_loop (ortho1_georef ortho2_georef : GeoReference R)
    (matched_ip1 matched_ip2 : List (InterestPoint F)) :
    Option (List (R × R × R) × List (R × R × R)) :=
  (List.range matched_ip1.length).foldlM
    (main_loop_step M ortho1_georef ortho2_georef matched_ip1 matched_ip2) ([], [])

/-- Construction of a `DiskImageResourceGDAL` over the named file (line 207). -/
def open_resource (p : Path) : Run B B := fun fs =>
  match fs p with
  | some b => (.ok b, fs, [Event.open_resource p])
  | none => (.error .SourceUnreadable, fs, [Event.open_resource p])

/-- Lines 207-243 of `main`. The result is the pair `(trans, indices)` whose two
components the last two output lines print. -/
def main (ortho1_name ortho2_name : Path) : Run B (T × List Nat) := do
  let ortho1_rsrc ← open_resource ortho1_name
  let ortho2_rsrc ← open_resource ortho2_name
  let ortho1_georef := M.read_georeference ortho1_rsrc
  let ortho2_georef := M.read_georeference ortho2_rsrc
  let (matched_ip1, matched_ip2) ← match_orthoimages feq E ortho1_name ortho2_name
  emit (.print .rejecting_outliers)
  let (ransac_ip1, ransac_ip2) ← or_throw .OutOfBounds
    (main_loop M ortho1_georef ortho2_georef matched_ip1 matched_ip2)
  emit .run_ransac
  let trans ← of_except (ransac M.ransac_search (1 / 10000) ransac_ip1 ransac_ip2)
  let indices := M.inlier_indices trans ransac_ip1 ransac_ip2
  emit (.print .ransac_result)
  emit (.print (.num_inliers indices.length))
  pure (trans, indices)

end Main

/-! ## Concrete instances used to evaluate the embedding -/

/-- Whether a binary32 bit pattern is a NaN. -/
def f32_isNaN (b : Nat) : Bool := (b / 2 ^ 23) % 256 == 255 && b % 2 ^ 23 != 0

/-- Whether a binary32 bit pattern is `+0` or `-0`. -/
def f32_isZero (b : Nat) : Bool := b % 2 ^ 31 == 0

/-- The comparison `==` of IEEE-754 binary32 on bit patterns: a NaN equals nothing, the
two zeros are equal, any other value equals only itself. -/
def f32_eq (a b : Nat) : Bool :=
  !f32_isNaN a && !f32_isNaN b && (a == b || (f32_isZero a && f32_isZero b))

def pt (x y : Nat) : InterestPoint Nat := ⟨x, y, []⟩

/-- File contents of the sample filesystems. -/
inductive DemoFile
  | image (id : Nat)
  | ip_file (l : List (InterestPoint Nat))
  | match_file (l r : List (InterestPoint Nat))
deriving DecidableEq

/-- Sample collaborators: the detector finds three points, the first and last at the
same location; the matcher pairs the points by position. -/
def demo_env : Env Nat DemoFile where
  image_readable := fun b => match b with | .image _ => true | _ => false
  detect_interest_points := fun b _ =>
    match b with
    | .image k => [pt k 1, pt (k + 1) 2, pt k 1]
    | _ => []
  descriptor := fun _ l => l
  matcher := fun _ a b => ((a.zip b).map Prod.fst, (a.zip b).map Prod.snd)
  write_binary_ip_file := fun l => .ip_file l
  read_binary_ip_file := fun b => match b with | .ip_file l => some l | _ => none
  write_binary_match_file := fun l r => .match_file l r
  read_binary_match_file := fun b => match b with | .match_file l r => some (l, r) | _ => none

/-- Sample collaborators of `main`: the georeference of image `k` shifts `x` by `k` and
then doubles it, so the two images have different georeferences and the two maps do not
commute; the search returns the two point lists it was given. -/
def demo_main_env :
    MainEnv Nat DemoFile Int (List (Int × Int × Int) × List (Int × Int × Int)) where
  read_georeference := fun b =>
    match b with
    | .image k => ⟨fun p => (p.1 + k, p.2), fun p => (2 * p.1, p.2 + 1)⟩
    | _ => ⟨fun p => p, fun p => p⟩
  to_double := fun n => (n : Int)
  ransac_search := fun _ a b => some (a, b)
  inlier_indices := fun _ a _ => List.range a.length

def a_tif : Path := ['a', '.', 't', 'i', 'f']
def b_tif : Path := ['b', '.', 't', 'i', 'f']
def a_vwip : Path := ['a', '.', 'v', 'w', 'i', 'p']
def b_vwip : Path := ['b', '.', 'v', 'w', 'i', 'p']
def a_b_match : Path := ['a', '_', '_', 'b', '.', 'm', 'a', 't', 'c', 'h']

/-- Two images, nothing cached. -/
def demo_fs : Files DemoFile := fun p =>
  if p = a_tif then some (.image 10)
  else if p = b_tif then some (.image 20)
  else none

/-- Two images, the interest points of the left one already cached. -/
def demo_fs_left_cached : Files DemoFile := fun p =>
  if p = a_tif then some (.image 10)
  else if p = b_tif then some (.image 20)
  else if p = a_vwip then some (.ip_file [pt 7 7])
  else none

/-- Two images and a pair artifact whose first two left points coincide. -/
def demo_fs_dup_match : Files DemoFile := fun p =>
  if p = a_tif then some (.image 10)
  else if p = b_tif then some (.image 20)
  else if p = a_b_match then some (.match_file [pt 1 1, pt 1 1] [pt 2 2, pt 3 3])
  else none

/-- A correspondence set whose entries 0 and 2 share the left location. -/
def sample_left : List (InterestPoint Nat) := [pt 1 2, pt 3 4, pt 1 2, pt 5 6]

def sample_right : List (InterestPoint Nat) := [pt 1 1, pt 2 2, pt 3 3, pt 4 4]

/-! ## Lemmas on `remove_duplicates` -/

section Keep
variable {α β : Type}

theorem keep_length (p : Nat → Bool) (l1 : List α) (l2 : List β)
    (hlen : l1.length = l2.length) (m : Nat) (hm : m ≤ l1.length) :
    ((List.range m).filterMap (fun k => if p k then none else l1[k]?)).length
      = ((List.range m).filterMap (fun k => if p k then none else l2[k]?)).length := by
  induction m with
  | zero => simp
  | succ m ih =>
    have hm1 : m < l1.length := hm
    have hm2 : m < l2.length := hlen ▸ hm1
    rw [List.range_succ, List.filterMap_append, List.filterMap_append, List.length_append,
      List.length_append, ih (Nat.le_of_succ_le hm)]
    cases hp : p m <;>
      simp [hp, List.getElem?_eq_getElem hm1, List.getElem?_eq_getElem hm2]

theorem keep_zip (p : Nat → Bool) (l1 : List α) (l2 : List β)
    (hlen : l1.length = l2.length) (m : Nat) (hm : m ≤ l1.length) :
    ((List.range m).filterMap (fun k => if p k then none else l1[k]?)).zip
        ((List.range m).filterMap (fun k => if p k then none else l2[k]?))
      = (List.range m).filterMap (fun k => if p k then none else (l1.zip l2)[k]?) := by
  induction m with
  | zero => simp
  | succ m ih =>
    have hm1 : m < l1.length := hm
    have hm2 : m < l2.length := hlen ▸ hm1
    have hm3 : m < (l1.zip l2).length := by simp [List.length_zip]; omega
    rw [List.range_succ, List.filterMap_append, List.filterMap_append, List.filterMap_append,
      List.zip_append (keep_length p l1 l2 hlen m (Nat.le_of_succ_le hm)),
      ih (Nat.le_of_succ_le hm)]
    cases hp : p m <;>
      simp [hp, List.getElem?_eq_getElem hm1, List.getElem?_eq_getElem hm2,
        List.getElem?_eq_getElem hm3]

theorem keep_sublist (p : Nat → Bool) (l : List α) (m : Nat) :
    ((List.range m).filterMap (fun k => if p k then none else l[k]?)).Sublist (l.take m) := by
  induction m with
  | zero => simp
  | succ m ih =>
    rw [List.range_succ, List.filterMap_append, List.take_succ]
    refine List.Sublist.append ih ?_
    cases hp : p m <;> cases hl : l[m]? <;> simp [hp, hl]

theorem keep_all (l : List α) (m : Nat) :
    (List.range m).filterMap (fun k => l[k]?) = l.take m := by
  induction m with
  | zero => simp
  | succ m ih =>
    rw [List.range_succ, List.filterMap_append, List.take_succ, ih]
    cases hl : l[m]? <;> simp [hl]

theorem keep_pairwise (R : α → α → Prop) (p : Nat → Bool) (l : List α) (n : Nat)
    (h : ∀ i j a b, i < j → j < n → p i = false → p j = false →
      l[i]? = some a → l[j]? = some b → R a b) :
    ((List.range n).filterMap (fun k => if p k then none else l[k]?)).Pairwise R := by
  rw [List.pairwise_filterMap]
  refine List.Pairwise.imp_of_mem ?_ (List.pairwise_lt_range n)
  intro i j _ hj hij a ha b hb
  have hjn : j < n := List.mem_range.mp hj
  cases hpi : p i
  · cases hpj : p j
    · simp only [hpi, hpj, Bool.false_eq_true, if_false, Option.mem_def] at ha hb
      exact h i j a b hij hjn hpi hpj ha hb
    · simp [hpj] at hb
  · simp [hpi] at ha

end Keep

section DedupLemmas
variable {F : Type} (feq : F → F → Bool)

theorem inner_step_eq (ip1 ip2 : List (InterestPoint F)) (hlen : ip1.length = ip2.length)
    (i j : Nat) (hi : i < ip1.length) (hj : j < ip1.length) (b : Bool) :
    inner_step feq ip1 ip2 i b j
      = some (b || (decide (j ≠ i) && coincide feq ip1 ip2 i j)) := by
  have hi2 : i < ip2.length := hlen ▸ hi
  have hj2 : j < ip2.length := hlen ▸ hj
  unfold inner_step coincide same_xy
  rw [List.getElem?_eq_getElem hi, List.getElem?_eq_getElem hj,
    List.getElem?_eq_getElem hi2, List.getElem?_eq_getElem hj2]
  by_cases hij : i = j
  · subst hij; simp
  · have hji : j ≠ i := fun h => hij h.symm
    cases h1 : feq ip1[i].x ip1[j].x <;> cases h2 : feq ip1[i].y ip1[j].y <;>
      cases h3 : feq ip2[i].x ip2[j].x <;> cases h4 : feq ip2[i].y ip2[j].y <;>
      simp [hij, hji, h1, h2, h3, h4]

theorem inner_loop_eq (ip1 ip2 : List (InterestPoint F)) (hlen : ip1.length = ip2.length)
    (i : Nat) (hi : i < ip1.length) (m : Nat) (hm : m ≤ ip1.length) (b : Bool) :
    (List.range m).foldlM (inner_step feq ip1 ip2 i) b
      = some (b || (List.range m).any
          (fun j => decide (j ≠ i) && coincide feq ip1 ip2 i j)) := by
  induction m generalizing b with
  | zero => simp
  | succ m ih =>
    have hm1 : m ≤ ip1.length := Nat.le_of_succ_le hm
    have hm2 : m < ip1.length := hm
    rw [List.range_succ, List.foldlM_append, ih hm1]
    simp [inner_step_eq feq ip1 ip2 hlen i m hi hm2, Bool.or_assoc]


theorem outer_step_eq (ip1 ip2 : List (InterestPoint F)) (hlen : ip1.length = ip2.length)
    (i : Nat) (hi : i < ip1.length)
    (acc : List (InterestPoint F) × List (InterestPoint F)) :
    outer_step feq ip1 ip2 acc i
      = some (acc.1 ++ [i].filterMap
                (fun k => if marked_bad feq ip1 ip2 k then none else ip1[k]?),
              acc.2 ++ [i].filterMap
                (fun k => if marked_bad feq ip1 ip2 k then none else ip2[k]?)) := by
  have hi2 : i < ip2.length := hlen ▸ hi
  unfold outer_step
  rw [inner_loop_eq feq ip1 ip2 hlen i hi ip1.length (Nat.le_refl _) false,
    List.getElem?_eq_getElem hi, List.getElem?_eq_getElem hi2]
  simp only [Bool.false_or]
  change (do
      let bad_entry ← some (marked_bad feq ip1 ip2 i)
      if (!bad_entry) = true then do
        let a ← some ip1[i]
        let b ← some ip2[i]
        pure (acc.1 ++ [a], acc.2 ++ [b])
      else pure acc) = _
  cases hb : marked_bad feq ip1 ip2 i <;>
    simp [hb, List.getElem?_eq_getElem hi, List.getElem?_eq_getElem hi2]

theorem outer_loop_eq (ip1 ip2 : List (InterestPoint F)) (hlen : ip1.length = ip2.length)
    (m : Nat) (hm : m ≤ ip1.length)
    (acc : List (InterestPoint F) × List (InterestPoint F)) :
    (List.range m).foldlM (outer_step feq ip1 ip2) acc
      = some (acc.1 ++ (List.range m).filterMap
                (fun k => if marked_bad feq ip1 ip2 k then none else ip1[k]?),
              acc.2 ++ (List.range m).filterMap
                (fun k => if marked_bad feq ip1 ip2 k then none else ip2[k]?)) := by
  induction m generalizing acc with
  | zero => simp
  | succ m ih =>
    have hm1 : m ≤ ip1.length := Nat.le_of_succ_le hm
    have hm2 : m < ip1.length := hm
    rw [List.range_succ, List.foldlM_append, ih hm1]
    simp only [List.foldlM_cons, List.foldlM_nil, Option.some_bind, Option.bind_eq_bind,
      outer_step_eq feq ip1 ip2 hlen m hm2, List.filterMap_append, List.append_assoc]
    rfl

theorem remove_duplicates_eq_spec (ip1 ip2 : List (InterestPoint F))
    (hlen : ip1.length = ip2.length) :
    remove_duplicates feq ip1 ip2 = some (dedup_spec feq ip1 ip2) := by
  unfold remove_duplicates dedup_spec
  rw [outer_loop_eq feq ip1 ip2 hlen ip1.length (Nat.le_refl _)]
  simp


theorem coincide_eq (ip1 ip2 : List (InterestPoint F)) (i j : Nat)
    (hi : i < ip1.length) (hj : j < ip1.length) (hi2 : i < ip2.length) (hj2 : j < ip2.length) :
    coincide feq ip1 ip2 i j = (same_xy feq ip1[i] ip1[j] || same_xy feq ip2[i] ip2[j]) := by
  unfold coincide
  rw [List.getElem?_eq_getElem hi, List.getElem?_eq_getElem hj,
    List.getElem?_eq_getElem hi2, List.getElem?_eq_getElem hj2]

theorem marked_bad_iff (ip1 ip2 : List (InterestPoint F)) (i : Nat)
    (hi : i < ip1.length) (hi2 : i < ip2.length) :
    marked_bad feq ip1 ip2 i = true ↔
      ∃ (j : Nat) (hj : j < ip1.length) (hj2 : j < ip2.length), j ≠ i ∧
        (same_xy feq ip1[i] ip1[j] = true ∨ same_xy feq ip2[i] ip2[j] = true) := by
  unfold marked_bad
  rw [List.any_eq_true]
  constructor
  · rintro ⟨j, hjr, hc⟩
    have hj : j < ip1.length := List.mem_range.mp hjr
    simp only [Bool.and_eq_true, decide_eq_true_eq] at hc
    by_cases hj2 : j < ip2.length
    · refine ⟨j, hj, hj2, hc.1, ?_⟩
      have := hc.2
      rw [coincide_eq feq ip1 ip2 i j hi hj hi2 hj2, Bool.or_eq_true] at this
      exact this
    · exfalso
      have hnone : ip2[j]? = none := List.getElem?_eq_none (Nat.le_of_not_lt hj2)
      have := hc.2
      unfold coincide at this
      rw [hnone] at this
      split at this <;> simp_all
  · rintro ⟨j, hj, hj2, hne, hc⟩
    refine ⟨j, List.mem_range.mpr hj, ?_⟩
    simp only [Bool.and_eq_true, decide_eq_true_eq]
    refine ⟨hne, ?_⟩
    rw [coincide_eq feq ip1 ip2 i j hi hj hi2 hj2, Bool.or_eq_true]
    exact hc

theorem not_marked_bad (ip1 ip2 : List (InterestPoint F)) (i j : Nat)
    (hi : i < ip1.length) (hj : j < ip1.length) (hi2 : i < ip2.length) (hj2 : j < ip2.length)
    (hne : j ≠ i) (hb : marked_bad feq ip1 ip2 i = false) :
    same_xy feq ip1[i] ip1[j] = false ∧ same_xy feq ip2[i] ip2[j] = false := by
  have h := (marked_bad_iff feq ip1 ip2 i hi hi2).not.mp (by simp [hb])
  constructor
  · cases hs : same_xy feq ip1[i] ip1[j]
    · rfl
    · exact absurd ⟨j, hj, hj2, hne, Or.inl hs⟩ h
  · cases hs : same_xy feq ip2[i] ip2[j]
    · rfl
    · exact absurd ⟨j, hj, hj2, hne, Or.inr hs⟩ h

theorem no_collision_of_pairwise (l : List (InterestPoint F))
    (h : l.Pairwise (fun a b => same_xy feq a b = false ∧ same_xy feq b a = false)) :
    no_collision feq l := by
  rw [List.pairwise_iff_getElem] at h
  intro i hi j hj hne
  rcases Nat.lt_or_gt_of_ne hne with hlt | hgt
  · exact (h i j hi hj hlt).1
  · exact (h j i hj hi hgt).2

theorem dedup_spec_no_collision (ip1 ip2 : List (InterestPoint F))
    (hlen : ip1.length = ip2.length) :
    no_collision feq (dedup_spec feq ip1 ip2).1 ∧
      no_collision feq (dedup_spec feq ip1 ip2).2 := by
  constructor
  · apply no_collision_of_pairwise
    apply keep_pairwise
    intro i j a b hij hj hbi hbj ha hb
    have hi : i < ip1.length := Nat.lt_trans hij hj
    rw [List.getElem?_eq_getElem hi] at ha
    rw [List.getElem?_eq_getElem hj] at hb
    cases ha; cases hb
    exact ⟨(not_marked_bad feq ip1 ip2 i j hi hj (hlen ▸ hi) (hlen ▸ hj)
              (Nat.ne_of_gt hij) hbi).1,
           (not_marked_bad feq ip1 ip2 j i hj hi (hlen ▸ hj) (hlen ▸ hi)
              (Nat.ne_of_lt hij) hbj).1⟩
  · apply no_collision_of_pairwise
    apply keep_pairwise
    intro i j a b hij hj hbi hbj ha hb
    have hi : i < ip1.length := Nat.lt_trans hij hj
    have hi2 : i < ip2.length := hlen ▸ hi
    have hj2 : j < ip2.length := hlen ▸ hj
    rw [List.getElem?_eq_getElem hi2] at ha
    rw [List.getElem?_eq_getElem hj2] at hb
    cases ha; cases hb
    exact ⟨(not_marked_bad feq ip1 ip2 i j hi hj hi2 hj2 (Nat.ne_of_gt hij) hbi).2,
           (not_marked_bad feq ip1 ip2 j i hj hi hj2 hi2 (Nat.ne_of_lt hij) hbj).2⟩

theorem dedup_spec_length (ip1 ip2 : List (InterestPoint F))
    (hlen : ip1.length = ip2.length) :
    (dedup_spec feq ip1 ip2).1.length = (dedup_spec feq ip1 ip2).2.length :=
  keep_length (marked_bad feq ip1 ip2) ip1 ip2 hlen ip1.length (Nat.le_refl _)

theorem dedup_spec_fixed (o1 o2 : List (InterestPoint F)) (hlen : o1.length = o2.length)
    (h1 : no_collision feq o1) (h2 : no_collision feq o2) :
    dedup_spec feq o1 o2 = (o1, o2) := by
  have hgood : ∀ i, i < o1.length → marked_bad feq o1 o2 i = false := by
    intro i hi
    cases hb : marked_bad feq o1 o2 i
    · rfl
    · obtain ⟨j, hj, hj2, hne, hc⟩ := (marked_bad_iff feq o1 o2 i hi (hlen ▸ hi)).mp hb
      rcases hc with hc | hc
      · rw [h1 i hi j hj (Ne.symm hne)] at hc; cases hc
      · rw [h2 i (hlen ▸ hi) j hj2 (Ne.symm hne)] at hc; cases hc
  unfold dedup_spec
  have e1 : (List.range o1.length).filterMap
        (fun i => if marked_bad feq o1 o2 i then none else o1[i]?)
      = (List.range o1.length).filterMap (fun i => o1[i]?) := by
    apply List.filterMap_congr
    intro i hi
    simp [hgood i (List.mem_range.mp hi)]
  have e2 : (List.range o1.length).filterMap
        (fun i => if marked_bad feq o1 o2 i then none else o2[i]?)
      = (List.range o1.length).filterMap (fun i => o2[i]?) := by
    apply List.filterMap_congr
    intro i hi
    simp [hgood i (List.mem_range.mp hi)]
  rw [e1, e2, keep_all, keep_all, hlen]
  simp [← hlen]

end DedupLemmas

/-! ### Lemmas that need no assumption on the lengths -/

section DedupAnyLength
variable {F : Type} (feq : F → F → Bool)

theorem inner_step_false (ip1 ip2 : List (InterestPoint F)) (i j : Nat) (b : Bool)
    (h : inner_step feq ip1 ip2 i b j = some false) :
    b = false ∧ (j ≠ i → ∀ a a' c c', ip1[i]? = some a → ip1[j]? = some a' →
      ip2[i]? = some c → ip2[j]? = some c' →
      same_xy feq a a' = false ∧ same_xy feq c c' = false) := by
  unfold inner_step at h
  by_cases hij : i = j
  · simp only [hij, ne_eq, not_true_eq_false, if_false, Option.pure_def,
      Option.some.injEq] at h
    exact ⟨h, fun hne => absurd hij.symm hne⟩
  · simp only [ne_eq, hij, not_false_eq_true, if_true] at h
    cases h1 : ip1[i]? with
    | none => simp [h1] at h
    | some a =>
      cases h2 : ip1[j]? with
      | none => simp [h1, h2] at h
      | some a' =>
        by_cases hs1 : feq a.x a'.x = true ∧ feq a.y a'.y = true
        · simp [h1, h2, hs1] at h
        · cases h3 : ip2[i]? with
          | none => simp [h1, h2, hs1, h3] at h
          | some c =>
            cases h4 : ip2[j]? with
            | none => simp [h1, h2, hs1, h3, h4] at h
            | some c' =>
              by_cases hs2 : feq c.x c'.x = true ∧ feq c.y c'.y = true
              · simp [h1, h2, hs1, h3, h4, hs2] at h
              · simp [h1, h2, hs1, h3, h4, hs2] at h
                refine ⟨h, ?_⟩
                intro _ x x' y y' e1 e2 e3 e4
                cases e1; cases e2; cases e3; cases e4
                constructor
                · cases hx : same_xy feq a a'
                  · rfl
                  · exact absurd (by simpa [same_xy] using hx) hs1
                · cases hx : same_xy feq c c'
                  · rfl
                  · exact absurd (by simpa [same_xy] using hx) hs2

theorem inner_loop_false (ip1 ip2 : List (InterestPoint F)) (i m : Nat) (b : Bool)
    (h : (List.range m).foldlM (inner_step feq ip1 ip2 i) b = some false) :
    b = false ∧ ∀ j, j < m → j ≠ i → ∀ a a' c c', ip1[i]? = some a → ip1[j]? = some a' →
      ip2[i]? = some c → ip2[j]? = some c' →
      same_xy feq a a' = false ∧ same_xy feq c c' = false := by
  induction m with
  | zero =>
    simp only [List.range_zero, List.foldlM_nil, Option.pure_def, Option.some.injEq] at h
    exact ⟨h, fun j hj => absurd hj (Nat.not_lt_zero j)⟩
  | succ m ih =>
    rw [List.range_succ, List.foldlM_append] at h
    cases hb : (List.range m).foldlM (inner_step feq ip1 ip2 i) b with
    | none => simp [hb] at h
    | some b1 =>
      simp only [hb, List.foldlM_cons, List.foldlM_nil, Option.some_bind,
        Option.bind_eq_bind] at h
      have hstep : inner_step feq ip1 ip2 i b1 m = some false := by
        cases hx : inner_step feq ip1 ip2 i b1 m with
        | none => simp [hx] at h
        | some v => simpa [hx] using h
      obtain ⟨hb1, hm⟩ := inner_step_false feq ip1 ip2 i m b1 hstep
      subst hb1
      obtain ⟨hb0, hlt⟩ := ih hb
      refine ⟨hb0, ?_⟩
      intro j hj hne
      rcases Nat.lt_succ_iff_lt_or_eq.mp hj with hjm | hjm
      · exact hlt j hjm hne
      · subst hjm; exact hm hne

theorem outer_step_some (ip1 ip2 : List (InterestPoint F))
    (acc acc1 : List (InterestPoint F) × List (InterestPoint F)) (i : Nat)
    (h : outer_step feq ip1 ip2 acc i = some acc1) :
    acc1 = acc ∨
      ((List.range ip1.length).foldlM (inner_step feq ip1 ip2 i) false = some false ∧
        ∃ a b, ip1[i]? = some a ∧ ip2[i]? = some b ∧ acc1 = (acc.1 ++ [a], acc.2 ++ [b])) := by
  unfold outer_step at h
  cases hin : (List.range ip1.length).foldlM (inner_step feq ip1 ip2 i) false with
  | none => simp [hin] at h
  | some bad =>
    cases bad with
    | true =>
      simp [hin] at h
      exact Or.inl h.symm
    | false =>
      cases h1 : ip1[i]? with
      | none => simp [hin, h1] at h
      | some a =>
        cases h2 : ip2[i]? with
        | none => simp [hin, h1, h2] at h
        | some b =>
          simp [hin, h1, h2] at h
          exact Or.inr ⟨rfl, a, b, rfl, rfl, h.symm⟩

theorem outer_loop_some (ip1 ip2 : List (InterestPoint F)) (m : Nat)
    (o : List (InterestPoint F) × List (InterestPoint F))
    (h : (List.range m).foldlM (outer_step feq ip1 ip2) ([], []) = some o) :
    ∃ K : List Nat, K.Pairwise (fun x y => x < y) ∧
      (∀ k ∈ K, k < m ∧
        (List.range ip1.length).foldlM (inner_step feq ip1 ip2 k) false = some false ∧
        (ip1[k]?).isSome = true ∧ (ip2[k]?).isSome = true) ∧
      o.1 = K.filterMap (fun k => ip1[k]?) ∧ o.2 = K.filterMap (fun k => ip2[k]?) := by
  induction m generalizing o with
  | zero =>
    simp only [List.range_zero, List.foldlM_nil, Option.pure_def, Option.some.injEq] at h
    subst h
    exact ⟨[], List.Pairwise.nil, by simp, rfl, rfl⟩
  | succ m ih =>
    rw [List.range_succ, List.foldlM_append] at h
    cases hacc : (List.range m).foldlM (outer_step feq ip1 ip2) ([], []) with
    | none => simp [hacc] at h
    | some acc =>
      simp only [hacc, List.foldlM_cons, List.foldlM_nil, Option.some_bind,
        Option.bind_eq_bind] at h
      have hstep : outer_step feq ip1 ip2 acc m = some o := by
        cases hx : outer_step feq ip1 ip2 acc m with
        | none => simp [hx] at h
        | some v => simpa [hx] using h
      obtain ⟨K, hK, hmem, h1, h2⟩ := ih acc hacc
      rcases outer_step_some feq ip1 ip2 acc o m hstep with rfl | ⟨hin, a, b, ha, hb, rfl⟩
      · exact ⟨K, hK, fun k hk => ⟨Nat.lt_succ_of_lt (hmem k hk).1, (hmem k hk).2⟩, h1, h2⟩
      · refine ⟨K ++ [m], ?_, ?_, ?_, ?_⟩
        · rw [List.pairwise_append]
          refine ⟨hK, List.pairwise_singleton _ _, ?_⟩
          intro x hx y hy
          rw [List.mem_singleton] at hy
          subst hy
          exact (hmem x hx).1
        · intro k hk
          rcases List.mem_append.mp hk with hk | hk
          · exact ⟨Nat.lt_succ_of_lt (hmem k hk).1, (hmem k hk).2⟩
          · rw [List.mem_singleton] at hk
            subst hk
            exact ⟨Nat.lt_succ_self _, hin, by simp [ha], by simp [hb]⟩
        · simp [List.filterMap_append, h1, ha]
        · simp [List.filterMap_append, h2, hb]

theorem remove_duplicates_some_no_collision (ip1 ip2 : List (InterestPoint F))
    (o : List (InterestPoint F) × List (InterestPoint F))
    (h : remove_duplicates feq ip1 ip2 = some o) :
    no_collision feq o.1 ∧ no_collision feq o.2 := by
  obtain ⟨K, hK, hmem, h1, h2⟩ := outer_loop_some feq ip1 ip2 ip1.length o h
  have key : ∀ i ∈ K, ∀ j ∈ K, i ≠ j → ∀ a a' c c', ip1[i]? = some a → ip1[j]? = some a' →
      ip2[i]? = some c → ip2[j]? = some c' →
      same_xy feq a a' = false ∧ same_xy feq c c' = false := by
    intro i hi j hj hne
    exact (inner_loop_false feq ip1 ip2 i ip1.length false (hmem i hi).2.1).2 j
      (hmem j hj).1 (Ne.symm hne)
  constructor
  · apply no_collision_of_pairwise
    rw [h1, List.pairwise_filterMap]
    refine List.Pairwise.imp_of_mem ?_ hK
    intro i j hi hj hij a ha a' ha'
    obtain ⟨c, hc⟩ := Option.isSome_iff_exists.mp (hmem i hi).2.2.2
    obtain ⟨c', hc'⟩ := Option.isSome_iff_exists.mp (hmem j hj).2.2.2
    exact ⟨(key i hi j hj (Nat.ne_of_lt hij) a a' c c' ha ha' hc hc').1,
      (key j hj i hi (Nat.ne_of_gt hij) a' a c' c ha' ha hc' hc).1⟩
  · apply no_collision_of_pairwise
    rw [h2, List.pairwise_filterMap]
    refine List.Pairwise.imp_of_mem ?_ hK
    intro i j hi hj hij c hc c' hc'
    obtain ⟨a, ha⟩ := Option.isSome_iff_exists.mp (hmem i hi).2.2.1
    obtain ⟨a', ha'⟩ := Option.isSome_iff_exists.mp (hmem j hj).2.2.1
    exact ⟨(key i hi j hj (Nat.ne_of_lt hij) a a' c c' ha ha' hc hc').2,
      (key j hj i hi (Nat.ne_of_gt hij) a' a c' c ha' ha hc' hc).2⟩

end DedupAnyLength

/-! ## Lemmas on computations -/

section RunLemmas
variable {B α β γ : Type}

theorem Run.bind_assoc (m : Run B α) (f : α → Run B β) (g : β → Run B γ) :
    (m.bind f).bind g = m.bind (fun a => (f a).bind g) := by
  funext fs
  unfold Run.bind
  rcases hm : m fs with ⟨r, fs1, t1⟩
  cases r with
  | error e => rfl
  | ok a =>
    simp only
    rcases hf : f a fs1 with ⟨r2, fs2, t2⟩
    cases r2 with
    | error e => rfl
    | ok b =>
      simp only
      rcases hg : g b fs2 with ⟨r3, fs3, t3⟩
      simp [List.append_assoc]

theorem Run.pure_bind (a : α) (f : α → Run B β) : (Run.pure a).bind f = f a := by
  funext fs
  unfold Run.bind Run.pure
  simp

theorem Run.bind_ok {m : Run B α} {f : α → Run B β} {fs fs1 : Files B} {a : α}
    {t1 : List Event} (h : m fs = (.ok a, fs1, t1)) :
    m.bind f fs = ((f a fs1).1, (f a fs1).2.1, t1 ++ (f a fs1).2.2) := by
  unfold Run.bind
  rw [h]

theorem Run.bind_error {m : Run B α} {f : α → Run B β} {fs fs1 : Files B}
    {e : PipelineError} {t1 : List Event} (h : m fs = (.error e, fs1, t1)) :
    m.bind f fs = (.error e, fs1, t1) := by
  unfold Run.bind
  rw [h]

theorem Run.emits_only_pure (P : Event → Prop) (a : α) :
    Run.emits_only P (Run.pure a : Run B α) := by
  intro fs e he
  simp [Run.pure] at he

theorem Run.emits_only_throw (P : Event → Prop) (x : PipelineError) :
    Run.emits_only P (throw_error x : Run B α) := by
  intro fs e he
  simp [throw_error] at he

theorem Run.emits_only_or_throw (P : Event → Prop) (x : PipelineError) (o : Option α) :
    Run.emits_only P (or_throw x o : Run B α) := by
  cases o
  · exact Run.emits_only_throw P x
  · exact Run.emits_only_pure P _

theorem Run.emits_only_of_except (P : Event → Prop) (o : Except PipelineError α) :
    Run.emits_only P (of_except o : Run B α) := by
  cases o
  · exact Run.emits_only_throw P _
  · exact Run.emits_only_pure P _

theorem Run.emits_only_emit (P : Event → Prop) (x : Event) (h : P x) :
    Run.emits_only P (emit x : Run B Unit) := by
  intro fs e he
  simp only [emit, List.mem_singleton] at he
  exact he ▸ h

theorem Run.emits_only_fs_exists (P : Event → Prop) (p : Path) :
    Run.emits_only P (fs_exists p : Run B Bool) := by
  intro fs e he
  simp [fs_exists] at he

theorem Run.emits_only_read_file (P : Event → Prop) (p : Path) (h : P (.read_file p)) :
    Run.emits_only P (read_file p : Run B B) := by
  intro fs e he
  unfold read_file at he
  cases hp : fs p <;> simp only [hp, List.mem_singleton] at he <;> exact he ▸ h

theorem Run.emits_only_write_file (P : Event → Prop) (p : Path) (b : B)
    (h : P (.write_file p)) : Run.emits_only P (write_file p b : Run B Unit) := by
  intro fs e he
  simp only [write_file, List.mem_singleton] at he
  exact he ▸ h

theorem Run.emits_only_bind (P : Event → Prop) (m : Run B α) (f : α → Run B β)
    (hm : Run.emits_only P m) (hf : ∀ a, Run.emits_only P (f a)) :
    Run.emits_only P (m.bind f) := by
  intro fs e he
  rcases h : m fs with ⟨r, fs1, t1⟩
  cases r with
  | error x =>
    rw [Run.bind_error h] at he
    exact hm fs e (by rw [h]; exact he)
  | ok a =>
    rw [Run.bind_ok h] at he
    rcases List.mem_append.mp he with h1 | h2
    · exact hm fs e (by rw [h]; exact h1)
    · exact hf a fs1 e h2

theorem Run.emits_only_ite (P : Event → Prop) (c : Prop) [Decidable c] (m1 m2 : Run B α)
    (h1 : Run.emits_only P m1) (h2 : Run.emits_only P m2) :
    Run.emits_only P (if c then m1 else m2) := by
  split
  · exact h1
  · exact h2

end RunLemmas

/-! ## Lemmas on `match_orthoimages` -/

section MatchLemmas
variable {F B : Type} (feq : F → F → Bool) (E : Env F B)

theorem open_image_emits (P : Event → Prop) (p : Path) (h : P (.open_image p)) :
    Run.emits_only P (open_image E p) := by
  intro fs e he
  unfold open_image at he
  cases hp : fs p with
  | none => simp only [hp, List.mem_singleton] at he; exact he ▸ h
  | some b =>
    cases hb : E.image_readable b <;>
      simp [hp, hb] at he <;> exact he ▸ h

theorem match_orthoimages_blocks (l r : Path) :
    match_orthoimages feq E l r = (do
      emit (.print .finding_interest_points)
      if (← fs_exists (match_file_of l r)) then
        use_cached_match_file E (match_file_of l r)
      else
        if (!(← fs_exists (left_ip_file_of l)) || !(← fs_exists (right_ip_file_of r))) then
          locate_interest_points E l r
        match_cached_ips feq E l r) := by
  unfold match_orthoimages use_cached_match_file locate_interest_points match_cached_ips
  simp only [bind, pure, Run.bind_assoc, Run.pure_bind]

theorem match_orthoimages_hit_eval (l r : Path) (fs : Files B) (b : B)
    (h : fs (match_file_of l r) = some b) :
    match_orthoimages feq E l r fs
      = (match E.read_binary_match_file b with
          | some v => (Except.ok v, fs,
              [Event.print .finding_interest_points, .print .using_cached_match_file,
               .read_file (match_file_of l r), .print (.num_matches v.1.length)])
          | none => (Except.error .SourceUnreadable, fs,
              [Event.print .finding_interest_points, .print .using_cached_match_file,
               .read_file (match_file_of l r)])) := by
  unfold match_orthoimages
  cases hb : E.read_binary_match_file b <;>
    simp [bind, Run.bind, fs_exists, h, emit, read_file, or_throw, hb, throw_error, pure,
      Run.pure]

theorem match_orthoimages_cached_ips_eval (l r : Path) (fs : Files B)
    (hmiss : fs (match_file_of l r) = none)
    (h1 : (fs (left_ip_file_of l)).isSome = true)
    (h2 : (fs (right_ip_file_of r)).isSome = true) :
    match_orthoimages feq E l r fs
      = ((match_cached_ips feq E l r fs).1, (match_cached_ips feq E l r fs).2.1,
          Event.print .finding_interest_points :: (match_cached_ips feq E l r fs).2.2) := by
  rw [match_orthoimages_blocks]
  simp [bind, Run.bind, fs_exists, hmiss, emit, h1, h2, pure, Run.pure]

theorem match_orthoimages_locate_eval (l r : Path) (fs : Files B)
    (hmiss : fs (match_file_of l r) = none)
    (h : fs (left_ip_file_of l) = none ∨ fs (right_ip_file_of r) = none) :
    match_orthoimages feq E l r fs
      = (match locate_interest_points E l r fs with
          | (.ok _, fs1, t1) =>
            ((match_cached_ips feq E l r fs1).1, (match_cached_ips feq E l r fs1).2.1,
              Event.print .finding_interest_points ::
                (t1 ++ (match_cached_ips feq E l r fs1).2.2))
          | (.error e, fs1, t1) =>
            (.error e, fs1, Event.print .finding_interest_points :: t1)) := by
  have hc : (!(fs (left_ip_file_of l)).isSome || !(fs (right_ip_file_of r)).isSome) = true := by
    rcases h with h | h <;> simp [h]
  rw [match_orthoimages_blocks]
  simp only [bind, Run.bind, fs_exists, hmiss, emit, pure, Run.pure, Option.isSome_none,
    Bool.false_eq_true, if_false, hc, if_true, List.nil_append, List.singleton_append]
  rcases hloc : locate_interest_points E l r fs with ⟨r1, fs1, t1⟩
  cases r1 <;> simp

end MatchLemmas

/-! ## Lemmas on the artifact names -/

theorem path_append_last (a b : Path) (hb : b ≠ []) :
    (path_append a b).getLast? = b.getLast? := by
  unfold path_append
  split
  · rfl
  · split
    · rw [List.getLast?_append_of_ne_nil _ hb]
    · have hc : '/' :: b = ['/'] ++ b := rfl
      rw [hc, List.getLast?_append_of_ne_nil _ (by simp),
        List.getLast?_append_of_ne_nil _ hb]

theorem path_append_right_inj (a b c : Path) (h : path_append a b = path_append a c) :
    b = c := by
  unfold path_append at h
  split at h
  · exact h
  · split at h
    · exact List.append_cancel_left h
    · have := List.append_cancel_left h
      exact List.cons_injective this

theorem match_file_last (l r : Path) : (match_file_of l r).getLast? = some 'h' := by
  unfold match_file_of
  rw [path_append_last _ _ (by simp), List.getLast?_append_of_ne_nil _ (by simp)]
  rfl

theorem ip_file_last (p : Path) :
    (change_extension p ['.', 'v', 'w', 'i', 'p']).getLast? = some 'p' := by
  unfold change_extension
  rw [path_append_last _ _ (by simp), List.getLast?_append_of_ne_nil _ (by simp)]
  rfl

theorem match_file_ne_ip_file (l r p : Path) :
    match_file_of l r ≠ change_extension p ['.', 'v', 'w', 'i', 'p'] := by
  intro h
  have h1 := match_file_last l r
  rw [h, ip_file_last] at h1
  revert h1
  decide

theorem match_file_ne_left_ip_file (l r p : Path) : match_file_of l r ≠ left_ip_file_of p :=
  match_file_ne_ip_file l r p

theorem match_file_ne_right_ip_file (l r p : Path) : match_file_of l r ≠ right_ip_file_of p :=
  match_file_ne_ip_file l r p

section BlockLemmas
variable {F B : Type} (feq : F → F → Bool) (E : Env F B)

theorem locate_interest_points_eval (l r : Path) (fs : Files B) (bl br : B)
    (hl : fs l = some bl) (hlr : E.image_readable bl = true)
    (hr : fs r = some br) (hrr : E.image_readable br = true) :
    locate_interest_points E l r fs
      = (.ok (),
          (fs.write (left_ip_file_of l)
              (E.write_binary_ip_file (E.descriptor bl (E.detect_interest_points bl 500)))).write
            (right_ip_file_of r)
              (E.write_binary_ip_file (E.descriptor br (E.detect_interest_points br 500))),
          [Event.print .locating_interest_points, .open_image l, .open_image r,
           .print (.processing l), .detect l,
           .print (.located (E.detect_interest_points bl 500).length),
           .print (.processing r), .detect r,
           .print (.located (E.detect_interest_points br 500).length),
           .print .generating_descriptors, .describe l, .describe r, .print .done,
           .print (.caching_interest_points (left_ip_file_of l) (right_ip_file_of r)),
           .write_file (left_ip_file_of l), .write_file (right_ip_file_of r)]) := by
  unfold locate_interest_points
  simp [bind, Run.bind, emit, open_image, hl, hlr, hr, hrr, write_file]

theorem match_cached_ips_ok (l r : Path) (fs1 fs' : Files B)
    (m : List (InterestPoint F) × List (InterestPoint F)) (t : List Event)
    (h : match_cached_ips feq E l r fs1 = (.ok m, fs', t)) :
    ∃ b1 b2 ips1 ips2,
      fs1 (left_ip_file_of l) = some b1 ∧ E.read_binary_ip_file b1 = some ips1 ∧
      fs1 (right_ip_file_of r) = some b2 ∧ E.read_binary_ip_file b2 = some ips2 ∧
      remove_duplicates feq (E.matcher (8 / 10) ips1 ips2).1 (E.matcher (8 / 10) ips1 ips2).2
        = some m ∧
      fs' = fs1.write (match_file_of l r) (E.write_binary_match_file m.1 m.2) := by
  unfold match_cached_ips at h
  cases h1 : fs1 (left_ip_file_of l) with
  | none => simp [bind, Run.bind, emit, read_file, h1] at h
  | some b1 =>
    cases h2 : E.read_binary_ip_file b1 with
    | none => simp [bind, Run.bind, emit, read_file, h1, h2, or_throw, throw_error] at h
    | some ips1 =>
      cases h3 : fs1 (right_ip_file_of r) with
      | none =>
        simp [bind, Run.bind, emit, read_file, h1, h2, h3, or_throw, Run.pure] at h
      | some b2 =>
        cases h4 : E.read_binary_ip_file b2 with
        | none =>
          simp [bind, Run.bind, emit, read_file, h1, h2, h3, h4, or_throw, throw_error,
            Run.pure] at h
        | some ips2 =>
          cases h5 : remove_duplicates feq (E.matcher (8 / 10) ips1 ips2).1
              (E.matcher (8 / 10) ips1 ips2).2 with
          | none =>
            simp [bind, Run.bind, emit, read_file, h1, h2, h3, h4, h5, or_throw, throw_error,
              Run.pure] at h
          | some m0 =>
            simp [bind, Run.bind, emit, read_file, h1, h2, h3, h4, h5, or_throw,
              Run.pure, write_file, pure] at h
            obtain ⟨hm, hfs, _⟩ := h
            subst hm
            exact ⟨b1, b2, ips1, ips2, rfl, h2, rfl, h4, h5, hfs.symm⟩

theorem match_cached_ips_returns (l r : Path) (fs1 : Files B) (b1 b2 : B)
    (ips1 ips2 : List (InterestPoint F))
    (m : List (InterestPoint F) × List (InterestPoint F))
    (h1 : fs1 (left_ip_file_of l) = some b1) (h2 : E.read_binary_ip_file b1 = some ips1)
    (h3 : fs1 (right_ip_file_of r) = some b2) (h4 : E.read_binary_ip_file b2 = some ips2)
    (h5 : remove_duplicates feq (E.matcher (8 / 10) ips1 ips2).1
      (E.matcher (8 / 10) ips1 ips2).2 = some m) :
    (match_cached_ips feq E l r fs1).1 = .ok m := by
  unfold match_cached_ips
  simp [bind, Run.bind, emit, read_file, h1, h2, h3, h4, h5, or_throw, Run.pure, write_file,
    pure]

theorem match_cached_ips_emits (P : Event → Prop) (l r : Path)
    (hprint : ∀ m, P (.print m)) (hread : ∀ p, P (.read_file p)) (hmatcher : P .run_matcher)
    (hwrite : P (.write_file (match_file_of l r))) :
    Run.emits_only P (match_cached_ips feq E l r) := by
  unfold match_cached_ips
  simp only [bind, pure]
  repeat first
    | with_reducible apply Run.emits_only_bind
    | with_reducible apply Run.emits_only_emit
    | with_reducible apply Run.emits_only_or_throw
    | with_reducible apply Run.emits_only_read_file
    | with_reducible apply Run.emits_only_write_file
    | with_reducible apply Run.emits_only_pure
    | exact hprint _
    | exact hread _
    | exact hmatcher
    | exact hwrite
    | intro _

set_option maxRecDepth 8000 in
theorem match_orthoimages_emits (P : Event → Prop) (l r : Path)
    (hprint : ∀ m, Event.is_report (.print m) = false → P (.print m))
    (hread : ∀ p, P (.read_file p)) (hmatcher : P .run_matcher)
    (hwrite : ∀ p, P (.write_file p)) (hopen : ∀ p, P (.open_image p))
    (hdetect : ∀ p, P (.detect p)) (hdescribe : ∀ p, P (.describe p)) :
    Run.emits_only P (match_orthoimages feq E l r) := by
  unfold match_orthoimages
  simp only [bind, pure]
  repeat first
    | with_reducible apply Run.emits_only_bind
    | with_reducible apply Run.emits_only_ite
    | with_reducible apply Run.emits_only_emit
    | with_reducible apply Run.emits_only_or_throw
    | with_reducible apply Run.emits_only_fs_exists
    | with_reducible apply Run.emits_only_read_file
    | with_reducible apply Run.emits_only_write_file
    | with_reducible apply Run.emits_only_pure
    | with_reducible apply open_image_emits
    | exact hprint _ rfl
    | exact hread _
    | exact hmatcher
    | exact hwrite _
    | exact hopen _
    | exact hdetect _
    | exact hdescribe _
    | intro _

end BlockLemmas

/-! ## Lemmas on the miss path and on `main` -/

section MissLemmas
variable {F B : Type} (feq : F → F → Bool) (E : Env F B)

theorem match_orthoimages_miss_ok (l r : Path) (fs : Files B)
    (m : List (InterestPoint F) × List (InterestPoint F))
    (hmiss : fs (match_file_of l r) = none)
    (hrun : (match_orthoimages feq E l r fs).1 = .ok m) :
    ∃ fs1, (match_cached_ips feq E l r fs1).1 = .ok m ∧
      (match_orthoimages feq E l r fs).2.1 = (match_cached_ips feq E l r fs1).2.1 := by
  by_cases hc : fs (left_ip_file_of l) = none ∨ fs (right_ip_file_of r) = none
  · rw [match_orthoimages_locate_eval feq E l r fs hmiss hc] at hrun ⊢
    rcases hloc : locate_interest_points E l r fs with ⟨r1, fs1, t1⟩
    rw [hloc] at hrun
    cases r1 with
    | error e => simp at hrun
    | ok u => exact ⟨fs1, hrun, rfl⟩
  · have h1 : (fs (left_ip_file_of l)).isSome = true := by
      cases h : fs (left_ip_file_of l) with
      | none => exact absurd (Or.inl h) hc
      | some _ => rfl
    have h2 : (fs (right_ip_file_of r)).isSome = true := by
      cases h : fs (right_ip_file_of r) with
      | none => exact absurd (Or.inr h) hc
      | some _ => rfl
    rw [match_orthoimages_cached_ips_eval feq E l r fs hmiss h1 h2] at hrun ⊢
    exact ⟨fs, hrun, rfl⟩

theorem match_orthoimages_miss_result (l r : Path) (fs : Files B)
    (m : List (InterestPoint F) × List (InterestPoint F))
    (hmiss : fs (match_file_of l r) = none)
    (hrun : (match_orthoimages feq E l r fs).1 = .ok m) :
    ∃ b1 b2 ips1 ips2,
      (match_orthoimages feq E l r fs).2.1 (left_ip_file_of l) = some b1 ∧
      E.read_binary_ip_file b1 = some ips1 ∧
      (match_orthoimages feq E l r fs).2.1 (right_ip_file_of r) = some b2 ∧
      E.read_binary_ip_file b2 = some ips2 ∧
      remove_duplicates feq (E.matcher (8 / 10) ips1 ips2).1 (E.matcher (8 / 10) ips1 ips2).2
        = some m ∧
      (match_orthoimages feq E l r fs).2.1 (match_file_of l r)
        = some (E.write_binary_match_file m.1 m.2) := by
  obtain ⟨fs1, hok, hfs⟩ := match_orthoimages_miss_ok feq E l r fs m hmiss hrun
  rcases hmc : match_cached_ips feq E l r fs1 with ⟨r1, fs2, t2⟩
  rw [hmc] at hok hfs
  simp only at hok hfs
  subst hok
  obtain ⟨b1, b2, ips1, ips2, e1, e2, e3, e4, e5, e6⟩ :=
    match_cached_ips_ok feq E l r fs1 fs2 m t2 hmc
  refine ⟨b1, b2, ips1, ips2, ?_, e2, ?_, e4, e5, ?_⟩
  · rw [hfs, e6]
    simp [Files.write, (match_file_ne_left_ip_file l r l).symm, e1]
  · rw [hfs, e6]
    simp [Files.write, (match_file_ne_right_ip_file l r r).symm, e3]
  · rw [hfs, e6]
    simp [Files.write]

theorem match_orthoimages_miss_returns (l r : Path) (fs : Files B)
    (hmiss : fs (match_file_of l r) = none)
    (hmatcher : ∀ a b, (E.matcher (8 / 10) a b).1.length = (E.matcher (8 / 10) a b).2.length)
    (hsrc :
      (∃ b1 b2 ips1 ips2, fs (left_ip_file_of l) = some b1 ∧
          E.read_binary_ip_file b1 = some ips1 ∧ fs (right_ip_file_of r) = some b2 ∧
          E.read_binary_ip_file b2 = some ips2) ∨
      ((fs (left_ip_file_of l) = none ∨ fs (right_ip_file_of r) = none) ∧
        (∃ bl br, fs l = some bl ∧ E.image_readable bl = true ∧
          fs r = some br ∧ E.image_readable br = true) ∧
        (∀ x, E.read_binary_ip_file (E.write_binary_ip_file x) = some x))) :
    ∃ m1 m2, (match_orthoimages feq E l r fs).1 = .ok (m1, m2) := by
  rcases hsrc with ⟨b1, b2, ips1, ips2, h1, h2, h3, h4⟩ | ⟨hc, ⟨bl, br, hl, hlr, hr, hrr⟩, hrt⟩
  · rw [match_orthoimages_cached_ips_eval feq E l r fs hmiss (by simp [h1]) (by simp [h3])]
    exact ⟨_, _, match_cached_ips_returns feq E l r fs b1 b2 ips1 ips2 _ h1 h2 h3 h4
      (remove_duplicates_eq_spec feq _ _ (hmatcher ips1 ips2))⟩
  · rw [match_orthoimages_locate_eval feq E l r fs hmiss hc,
      locate_interest_points_eval E l r fs bl br hl hlr hr hrr]
    by_cases hp : left_ip_file_of l = right_ip_file_of r
    · exact ⟨_, _, match_cached_ips_returns feq E l r _
        (E.write_binary_ip_file (E.descriptor br (E.detect_interest_points br 500)))
        (E.write_binary_ip_file (E.descriptor br (E.detect_interest_points br 500)))
        _ _ _ (by simp [Files.write, hp]) (hrt _) (by simp [Files.write]) (hrt _)
        (remove_duplicates_eq_spec feq _ _ (hmatcher _ _))⟩
    · exact ⟨_, _, match_cached_ips_returns feq E l r _
        (E.write_binary_ip_file (E.descriptor bl (E.detect_interest_points bl 500)))
        (E.write_binary_ip_file (E.descriptor br (E.detect_interest_points br 500)))
        _ _ _ (by simp [Files.write, hp]) (hrt _) (by simp [Files.write]) (hrt _)
        (remove_duplicates_eq_spec feq _ _ (hmatcher _ _))⟩

end MissLemmas

section MainLemmas
variable {F B R T : Type} [One R] (M : MainEnv F B R T)

theorem main_loop_upto (g1 g2 : GeoReference R) (m1 m2 : List (InterestPoint F))
    (hlen : m1.length = m2.length) (k : Nat) (hk : k ≤ m1.length)
    (acc : List (R × R × R) × List (R × R × R)) :
    (List.range k).foldlM (main_loop_step M g1 g2 m1 m2) acc
      = some
          (acc.1 ++ (m1.take k).map (fun p =>
              ((g1.point_to_lonlat (g1.pixel_to_point (M.to_double p.x, M.to_double p.y))).1,
               (g1.point_to_lonlat (g1.pixel_to_point (M.to_double p.x, M.to_double p.y))).2,
               1)),
           acc.2 ++ (m2.take k).map (fun p =>
              ((g2.point_to_lonlat (g2.pixel_to_point (M.to_double p.x, M.to_double p.y))).1,
               (g2.point_to_lonlat (g2.pixel_to_point (M.to_double p.x, M.to_double p.y))).2,
               1))) := by
  induction k generalizing acc with
  | zero => simp
  | succ k ih =>
    have hk1 : k < m1.length := hk
    have hk2 : k < m2.length := hlen ▸ hk1
    rw [List.range_succ, List.foldlM_append, ih (Nat.le_of_succ_le hk)]
    simp only [List.foldlM_cons, List.foldlM_nil, main_loop_step,
      List.getElem?_eq_getElem hk1, List.getElem?_eq_getElem hk2, List.take_succ,
      Option.some_bind, Option.bind_eq_bind, Option.pure_def, Option.toList_some,
      List.map_append, List.map_cons, List.map_nil, List.append_assoc]

theorem main_loop_eq (g1 g2 : GeoReference R) (m1 m2 : List (InterestPoint F))
    (hlen : m1.length = m2.length) :
    main_loop M g1 g2 m1 m2
      = some
          (m1.map (fun p =>
              ((g1.point_to_lonlat (g1.pixel_to_point (M.to_double p.x, M.to_double p.y))).1,
               (g1.point_to_lonlat (g1.pixel_to_point (M.to_double p.x, M.to_double p.y))).2,
               1)),
           m2.map (fun p =>
              ((g2.point_to_lonlat (g2.pixel_to_point (M.to_double p.x, M.to_double p.y))).1,
               (g2.point_to_lonlat (g2.pixel_to_point (M.to_double p.x, M.to_double p.y))).2,
               1))) := by
  unfold main_loop
  rw [main_loop_upto M g1 g2 m1 m2 hlen m1.length (Nat.le_refl _)]
  simp [hlen]

end MainLemmas

/-! ## The duplicate-correspondence filter -/

section DedupClaims
variable {F : Type} (feq : F → F → Bool)

/-- C1: on two lists of equal length `remove_duplicates` returns, and its output has no
coordinate collision: no two distinct positions of the left output hold points with equal
`(x, y)`, and likewise for the right output. -/
theorem remove_duplicates_no_collision (ip1 ip2 : List (InterestPoint F))
    (hlen : ip1.length = ip2.length) :
    ∃ o1 o2, remove_duplicates feq ip1 ip2 = some (o1, o2) ∧
      (∀ (i j : Nat) (hi : i < o1.length) (hj : j < o1.length),
        i ≠ j → same_xy feq o1[i] o1[j] = false) ∧
      (∀ (i j : Nat) (hi : i < o2.length) (hj : j < o2.length),
        i ≠ j → same_xy feq o2[i] o2[j] = false) :=
  ⟨_, _, remove_duplicates_eq_spec feq ip1 ip2 hlen,
    fun i j hi hj hne => (dedup_spec_no_collision feq ip1 ip2 hlen).1 i hi j hj hne,
    fun i j hi hj hne => (dedup_spec_no_collision feq ip1 ip2 hlen).2 i hi j hj hne⟩

/-- Instance of `remove_duplicates_no_collision` on the sample correspondences. -/
theorem remove_duplicates_no_collision_witness :
    sample_left.length = sample_right.length ∧
    ∃ o1 o2, remove_duplicates f32_eq sample_left sample_right = some (o1, o2) ∧
      (∀ (i j : Nat) (hi : i < o1.length) (hj : j < o1.length),
        i ≠ j → same_xy f32_eq o1[i] o1[j] = false) ∧
      (∀ (i j : Nat) (hi : i < o2.length) (hj : j < o2.length),
        i ≠ j → same_xy f32_eq o2[i] o2[j] = false) :=
  ⟨by decide, remove_duplicates_no_collision f32_eq sample_left sample_right (by decide)⟩

/-- C2: on two lists of equal length `remove_duplicates` returns exactly the entries at
the indices not marked bad, in increasing index order, where `i` is marked bad iff some
`j ≠ i` has the same left `(x, y)` or the same right `(x, y)`; paired up, the outputs
are the pairs `(ip1[i], ip2[i])` at those indices, so the two outputs have equal length
and form an index-aligned subsequence of the input. -/
theorem remove_duplicates_keeps_unmarked (ip1 ip2 : List (InterestPoint F))
    (hlen : ip1.length = ip2.length) :
    remove_duplicates feq ip1 ip2 = some (dedup_spec feq ip1 ip2) ∧
    (∀ (i : Nat) (hi : i < ip1.length) (hi2 : i < ip2.length),
      marked_bad feq ip1 ip2 i = true ↔
        ∃ (j : Nat) (hj : j < ip1.length) (hj2 : j < ip2.length), j ≠ i ∧
          (same_xy feq ip1[i] ip1[j] = true ∨ same_xy feq ip2[i] ip2[j] = true)) ∧
    (dedup_spec feq ip1 ip2).1.zip (dedup_spec feq ip1 ip2).2
      = (List.range ip1.length).filterMap
          (fun i => if marked_bad feq ip1 ip2 i then none else (ip1.zip ip2)[i]?) ∧
    (dedup_spec feq ip1 ip2).1.length = (dedup_spec feq ip1 ip2).2.length ∧
    ((dedup_spec feq ip1 ip2).1.zip (dedup_spec feq ip1 ip2).2).Sublist (ip1.zip ip2) := by
  have hz := keep_zip (marked_bad feq ip1 ip2) ip1 ip2 hlen ip1.length (Nat.le_refl _)
  refine ⟨remove_duplicates_eq_spec feq ip1 ip2 hlen,
    fun i hi hi2 => marked_bad_iff feq ip1 ip2 i hi hi2, hz,
    dedup_spec_length feq ip1 ip2 hlen, ?_⟩
  unfold dedup_spec
  rw [hz]
  have h := keep_sublist (marked_bad feq ip1 ip2) (ip1.zip ip2) ip1.length
  rwa [List.take_of_length_le (by simp [List.length_zip])] at h

/-- Instance of `remove_duplicates_keeps_unmarked` on the sample correspondences: entries 0
and 2 are dropped. -/
theorem remove_duplicates_keeps_unmarked_witness :
    sample_left.length = sample_right.length ∧
    remove_duplicates f32_eq sample_left sample_right
      = some (dedup_spec f32_eq sample_left sample_right) ∧
    dedup_spec f32_eq sample_left sample_right = ([pt 3 4, pt 5 6], [pt 2 2, pt 4 4]) :=
  ⟨by decide,
    (remove_duplicates_keeps_unmarked f32_eq sample_left sample_right (by decide)).1,
    by decide⟩

/-- C3: `remove_duplicates` is idempotent: on two lists of equal length it returns, and
applying it again to its output returns that output unchanged, on both sides. -/
theorem remove_duplicates_idempotent (ip1 ip2 : List (InterestPoint F))
    (hlen : ip1.length = ip2.length) :
    ∃ o1 o2, remove_duplicates feq ip1 ip2 = some (o1, o2) ∧
      remove_duplicates feq o1 o2 = some (o1, o2) := by
  have hl := dedup_spec_length feq ip1 ip2 hlen
  have hc := dedup_spec_no_collision feq ip1 ip2 hlen
  refine ⟨(dedup_spec feq ip1 ip2).1, (dedup_spec feq ip1 ip2).2,
    remove_duplicates_eq_spec feq ip1 ip2 hlen, ?_⟩
  rw [remove_duplicates_eq_spec feq _ _ hl, dedup_spec_fixed feq _ _ hl hc.1 hc.2]

/-- Instance of `remove_duplicates_idempotent` on the sample correspondences. -/
theorem remove_duplicates_idempotent_witness :
    sample_left.length = sample_right.length ∧
    ∃ o1 o2, remove_duplicates f32_eq sample_left sample_right = some (o1, o2) ∧
      remove_duplicates f32_eq o1 o2 = some (o1, o2) :=
  ⟨by decide, remove_duplicates_idempotent f32_eq sample_left sample_right (by decide)⟩

end DedupClaims

/-! ## The correspondence cache -/

section CacheClaims
variable {F B : Type} (feq : F → F → Bool) (E : Env F B)

/-- C4: when the pair artifact exists, `match_orthoimages` returns exactly what
`read_binary_match_file` makes of that artifact (its failure aborts the run), leaves the
filesystem unchanged, and issues no call of the image decoder, the detector, the
descriptor generator or the matcher and no write, whatever the state of the two
interest-point artifacts. -/
theorem match_orthoimages_cache_hit (l r : Path) (fs : Files B) (b : B)
    (h : fs (match_file_of l r) = some b) :
    (match_orthoimages feq E l r fs).1
      = (match E.read_binary_match_file b with
          | some v => Except.ok v
          | none => Except.error PipelineError.SourceUnreadable) ∧
    (match_orthoimages feq E l r fs).2.1 = fs ∧
    ∀ e ∈ (match_orthoimages feq E l r fs).2.2,
      e.is_collaborator_call = false ∧ e.is_write = false := by
  rw [match_orthoimages_hit_eval feq E l r fs b h]
  cases hb : E.read_binary_match_file b with
  | none =>
    refine ⟨rfl, rfl, ?_⟩
    intro e he
    simp only [List.mem_cons, List.mem_singleton, List.not_mem_nil, or_false] at he
    rcases he with rfl | rfl | rfl <;> exact ⟨rfl, rfl⟩
  | some v =>
    refine ⟨rfl, rfl, ?_⟩
    intro e he
    simp only [List.mem_cons, List.mem_singleton, List.not_mem_nil, or_false] at he
    rcases he with rfl | rfl | rfl | rfl <;> exact ⟨rfl, rfl⟩

/-- Instance of `match_orthoimages_cache_hit` on a filesystem holding a pair artifact. -/
theorem match_orthoimages_cache_hit_witness :
    demo_fs_dup_match (match_file_of a_tif b_tif)
      = some (.match_file [pt 1 1, pt 1 1] [pt 2 2, pt 3 3]) ∧
    (match_orthoimages f32_eq demo_env a_tif b_tif demo_fs_dup_match).1
      = Except.ok ([pt 1 1, pt 1 1], [pt 2 2, pt 3 3]) ∧
    (match_orthoimages f32_eq demo_env a_tif b_tif demo_fs_dup_match).2.1
      = demo_fs_dup_match ∧
    ∀ e ∈ (match_orthoimages f32_eq demo_env a_tif b_tif demo_fs_dup_match).2.2,
      e.is_collaborator_call = false ∧ e.is_write = false :=
  ⟨by decide,
    match_orthoimages_cache_hit f32_eq demo_env a_tif b_tif demo_fs_dup_match
      (.match_file [pt 1 1, pt 1 1] [pt 2 2, pt 3 3]) (by decide)⟩

/-- C5: when the pair artifact does not exist, every run that returns `(m1, m2)` has read
sequences `ips1`, `ips2` from the two interest-point artifacts with
`(m1, m2) = remove_duplicates (matcher 0.8 ips1 ips2)`, has written the serialization of
`(m1, m2)` to the pair artifact, and, if that serialization reads back as `(m1, m2)`, is
followed by a second call with the same paths that returns `(m1, m2)` and leaves the
filesystem as it is. The run does return when the matcher yields lists of equal length
and either both interest-point artifacts exist and deserialize, or one is missing, both
images can be opened and interest-point serialization reads back. -/
theorem match_orthoimages_cache_miss (l r : Path) (fs : Files B)
    (hmiss : fs (match_file_of l r) = none) :
    (∀ m1 m2, (match_orthoimages feq E l r fs).1 = .ok (m1, m2) →
      ∃ b1 b2 ips1 ips2,
        (match_orthoimages feq E l r fs).2.1 (left_ip_file_of l) = some b1 ∧
        E.read_binary_ip_file b1 = some ips1 ∧
        (match_orthoimages feq E l r fs).2.1 (right_ip_file_of r) = some b2 ∧
        E.read_binary_ip_file b2 = some ips2 ∧
        remove_duplicates feq (E.matcher (8 / 10) ips1 ips2).1
          (E.matcher (8 / 10) ips1 ips2).2 = some (m1, m2) ∧
        (match_orthoimages feq E l r fs).2.1 (match_file_of l r)
          = some (E.write_binary_match_file m1 m2) ∧
        (E.read_binary_match_file (E.write_binary_match_file m1 m2) = some (m1, m2) →
          (match_orthoimages feq E l r (match_orthoimages feq E l r fs).2.1).1
              = .ok (m1, m2) ∧
          (match_orthoimages feq E l r (match_orthoimages feq E l r fs).2.1).2.1
              = (match_orthoimages feq E l r fs).2.1)) ∧
    ((∀ a b, (E.matcher (8 / 10) a b).1.length = (E.matcher (8 / 10) a b).2.length) →
      ((∃ b1 b2 ips1 ips2, fs (left_ip_file_of l) = some b1 ∧
            E.read_binary_ip_file b1 = some ips1 ∧ fs (right_ip_file_of r) = some b2 ∧
            E.read_binary_ip_file b2 = some ips2) ∨
        ((fs (left_ip_file_of l) = none ∨ fs (right_ip_file_of r) = none) ∧
          (∃ bl br, fs l = some bl ∧ E.image_readable bl = true ∧
            fs r = some br ∧ E.image_readable br = true) ∧
          (∀ x, E.read_binary_ip_file (E.write_binary_ip_file x) = some x))) →
      ∃ m1 m2, (match_orthoimages feq E l r fs).1 = .ok (m1, m2)) := by
  constructor
  · intro m1 m2 hrun
    obtain ⟨b1, b2, ips1, ips2, e1, e2, e3, e4, e5, e6⟩ :=
      match_orthoimages_miss_result feq E l r fs (m1, m2) hmiss hrun
    refine ⟨b1, b2, ips1, ips2, e1, e2, e3, e4, e5, e6, ?_⟩
    intro hrt
    rw [match_orthoimages_hit_eval feq E l r _ _ e6]
    simp [hrt]
  · intro hmatcher hsrc
    exact match_orthoimages_miss_returns feq E l r fs hmiss hmatcher hsrc

/-- Instance of `match_orthoimages_cache_miss` on a filesystem holding only the two
images: the run returns one correspondence, and the second call returns it again. -/
theorem match_orthoimages_cache_miss_witness :
    demo_fs (match_file_of a_tif b_tif) = none ∧
    (match_orthoimages f32_eq demo_env a_tif b_tif demo_fs).1
      = .ok ([pt 11 2], [pt 21 2]) ∧
    (∃ b1 b2 ips1 ips2,
      (match_orthoimages f32_eq demo_env a_tif b_tif demo_fs).2.1 (left_ip_file_of a_tif)
        = some b1 ∧
      demo_env.read_binary_ip_file b1 = some ips1 ∧
      (match_orthoimages f32_eq demo_env a_tif b_tif demo_fs).2.1 (right_ip_file_of b_tif)
        = some b2 ∧
      demo_env.read_binary_ip_file b2 = some ips2 ∧
      remove_duplicates f32_eq (demo_env.matcher (8 / 10) ips1 ips2).1
        (demo_env.matcher (8 / 10) ips1 ips2).2 = some ([pt 11 2], [pt 21 2]) ∧
      (match_orthoimages f32_eq demo_env a_tif b_tif demo_fs).2.1 (match_file_of a_tif b_tif)
        = some (demo_env.write_binary_match_file [pt 11 2] [pt 21 2]) ∧
      (demo_env.read_binary_match_file (demo_env.write_binary_match_file [pt 11 2] [pt 21 2])
          = some ([pt 11 2], [pt 21 2]) →
        (match_orthoimages f32_eq demo_env a_tif b_tif
            (match_orthoimages f32_eq demo_env a_tif b_tif demo_fs).2.1).1
          = .ok ([pt 11 2], [pt 21 2]) ∧
        (match_orthoimages f32_eq demo_env a_tif b_tif
            (match_orthoimages f32_eq demo_env a_tif b_tif demo_fs).2.1).2.1
          = (match_orthoimages f32_eq demo_env a_tif b_tif demo_fs).2.1)) ∧
    ∃ m1 m2, (match_orthoimages f32_eq demo_env a_tif b_tif demo_fs).1 = .ok (m1, m2) :=
  ⟨by decide, by rfl,
    (match_orthoimages_cache_miss f32_eq demo_env a_tif b_tif demo_fs (by decide)).1
      [pt 11 2] [pt 21 2] (by rfl),
    (match_orthoimages_cache_miss f32_eq demo_env a_tif b_tif demo_fs (by decide)).2
      (by intro a b; simp [demo_env])
      (Or.inr ⟨Or.inl (by decide),
        ⟨.image 10, .image 20, by decide, by decide, by decide, by decide⟩,
        by intro x; rfl⟩)⟩

/-- C6 fails as stated: with the left interest-point artifact present and the right one
missing, the run passes the left image to the detector and writes the left artifact
again. -/
theorem ip_cache_overwrites_existing :
    demo_fs_left_cached (left_ip_file_of a_tif) = some (.ip_file [pt 7 7]) ∧
    demo_fs_left_cached (right_ip_file_of b_tif) = none ∧
    Event.detect a_tif
      ∈ (match_orthoimages f32_eq demo_env a_tif b_tif demo_fs_left_cached).2.2 ∧
    Event.write_file (left_ip_file_of a_tif)
      ∈ (match_orthoimages f32_eq demo_env a_tif b_tif demo_fs_left_cached).2.2 ∧
    (match_orthoimages f32_eq demo_env a_tif b_tif demo_fs_left_cached).2.1
        (left_ip_file_of a_tif)
      = some (.ip_file [pt 10 1, pt 11 2, pt 10 1]) := by
  decide

/-- C6, amended: when the pair artifact exists, or both interest-point artifacts exist,
the run calls neither the image decoder, the detector nor the descriptor generator and
writes neither interest-point artifact; when the pair artifact is missing, an
interest-point artifact is missing and both images can be opened, the run passes both
images to the detector and writes both interest-point artifacts. -/
theorem ip_cache_written_together (l r : Path) (fs : Files B) :
    ((fs (match_file_of l r) ≠ none ∨
        (fs (left_ip_file_of l) ≠ none ∧ fs (right_ip_file_of r) ≠ none)) →
      ∀ e ∈ (match_orthoimages feq E l r fs).2.2,
        e.is_detection = false ∧ e ≠ .write_file (left_ip_file_of l) ∧
          e ≠ .write_file (right_ip_file_of r)) ∧
    (fs (match_file_of l r) = none →
      (fs (left_ip_file_of l) = none ∨ fs (right_ip_file_of r) = none) →
      ∀ bl br, fs l = some bl → E.image_readable bl = true →
        fs r = some br → E.image_readable br = true →
        Event.detect l ∈ (match_orthoimages feq E l r fs).2.2 ∧
        Event.detect r ∈ (match_orthoimages feq E l r fs).2.2 ∧
        Event.write_file (left_ip_file_of l) ∈ (match_orthoimages feq E l r fs).2.2 ∧
        Event.write_file (right_ip_file_of r) ∈ (match_orthoimages feq E l r fs).2.2) := by
  constructor
  · intro h e he
    cases hm : fs (match_file_of l r) with
    | some b =>
      rw [match_orthoimages_hit_eval feq E l r fs b hm] at he
      cases hb : E.read_binary_match_file b with
      | none =>
        simp only [hb, List.mem_cons, List.mem_singleton, List.not_mem_nil, or_false] at he
        rcases he with rfl | rfl | rfl <;> simp [Event.is_detection]
      | some v =>
        simp only [hb, List.mem_cons, List.mem_singleton, List.not_mem_nil, or_false] at he
        rcases he with rfl | rfl | rfl | rfl <;> simp [Event.is_detection]
    | none =>
      rcases h with h | ⟨h1, h2⟩
      · exact absurd hm h
      · have h1s : (fs (left_ip_file_of l)).isSome = true := by
          cases hx : fs (left_ip_file_of l) with
          | none => exact absurd hx h1
          | some _ => rfl
        have h2s : (fs (right_ip_file_of r)).isSome = true := by
          cases hx : fs (right_ip_file_of r) with
          | none => exact absurd hx h2
          | some _ => rfl
        rw [match_orthoimages_cached_ips_eval feq E l r fs hm h1s h2s] at he
        rcases List.mem_cons.mp he with rfl | he
        · simp [Event.is_detection]
        · refine match_cached_ips_emits feq E
            (fun e => e.is_detection = false ∧ e ≠ .write_file (left_ip_file_of l) ∧
              e ≠ .write_file (right_ip_file_of r)) l r ?_ ?_ ?_ ?_ fs e he
          · intro m; simp [Event.is_detection]
          · intro p; simp [Event.is_detection]
          · simp [Event.is_detection]
          · refine ⟨rfl, ?_, ?_⟩
            · intro hx
              exact match_file_ne_left_ip_file l r l (Event.write_file.inj hx)
            · intro hx
              exact match_file_ne_right_ip_file l r r (Event.write_file.inj hx)
  · intro hm hc bl br hl hlr hr hrr
    rw [match_orthoimages_locate_eval feq E l r fs hm hc,
      locate_interest_points_eval E l r fs bl br hl hlr hr hrr]
    simp

/-- Instance of `ip_cache_written_together`: a cache hit, and a run with only the left
interest-point artifact present. -/
theorem ip_cache_written_together_witness :
    (∀ e ∈ (match_orthoimages f32_eq demo_env a_tif b_tif demo_fs_dup_match).2.2,
        e.is_detection = false ∧ e ≠ .write_file (left_ip_file_of a_tif) ∧
          e ≠ .write_file (right_ip_file_of b_tif)) ∧
    (Event.detect a_tif
        ∈ (match_orthoimages f32_eq demo_env a_tif b_tif demo_fs_left_cached).2.2 ∧
      Event.detect b_tif
        ∈ (match_orthoimages f32_eq demo_env a_tif b_tif demo_fs_left_cached).2.2 ∧
      Event.write_file (left_ip_file_of a_tif)
        ∈ (match_orthoimages f32_eq demo_env a_tif b_tif demo_fs_left_cached).2.2 ∧
      Event.write_file (right_ip_file_of b_tif)
        ∈ (match_orthoimages f32_eq demo_env a_tif b_tif demo_fs_left_cached).2.2) :=
  ⟨(ip_cache_written_together f32_eq demo_env a_tif b_tif demo_fs_dup_match).1
      (Or.inl (by decide)),
    (ip_cache_written_together f32_eq demo_env a_tif b_tif demo_fs_left_cached).2
      (by decide) (Or.inr (by decide)) (.image 10) (.image 20) (by decide) (by decide)
      (by decide) (by decide)⟩

end CacheClaims

/-! ## The key of the pair artifact -/

section DedupReturned
variable {F B : Type} (feq : F → F → Bool) (E : Env F B)

/-- C8 fails as stated: on a cache hit the content of the pair artifact is returned as
it is, so a pre-existing artifact with two coinciding left points yields a result with a
coordinate collision. -/
theorem cache_hit_returns_duplicates :
    (match_orthoimages f32_eq demo_env a_tif b_tif demo_fs_dup_match).1
      = .ok ([pt 1 1, pt 1 1], [pt 2 2, pt 3 3]) ∧
    ¬ no_collision f32_eq [pt 1 1, pt 1 1] := by
  refine ⟨by rfl, ?_⟩
  decide

/-- C8, amended: the correspondences returned on the cache-miss path have no two
distinct indices whose left points, or whose right points, share the same `(x, y)`; on
the cache-hit path the returned correspondences are exactly the deserialized content of
the pre-existing pair artifact. -/
theorem match_orthoimages_deduplicated_on_miss (l r : Path) (fs : Files B)
    (m1 m2 : List (InterestPoint F))
    (hrun : (match_orthoimages feq E l r fs).1 = .ok (m1, m2)) :
    (fs (match_file_of l r) = none → no_collision feq m1 ∧ no_collision feq m2) ∧
    (∀ b, fs (match_file_of l r) = some b →
      E.read_binary_match_file b = some (m1, m2)) := by
  constructor
  · intro hmiss
    obtain ⟨b1, b2, ips1, ips2, _, _, _, _, e5, _⟩ :=
      match_orthoimages_miss_result feq E l r fs (m1, m2) hmiss hrun
    exact remove_duplicates_some_no_collision feq _ _ (m1, m2) e5
  · intro b hb
    rw [match_orthoimages_hit_eval feq E l r fs b hb] at hrun
    cases hr : E.read_binary_match_file b with
    | none => simp [hr] at hrun
    | some v =>
      simp only [hr, Except.ok.injEq] at hrun
      rw [hrun]

/-- Instance of `match_orthoimages_deduplicated_on_miss` on a cache miss and on a cache hit. -/
theorem match_orthoimages_deduplicated_on_miss_witness :
    (no_collision f32_eq [pt 11 2] ∧ no_collision f32_eq [pt 21 2]) ∧
    demo_env.read_binary_match_file (.match_file [pt 1 1, pt 1 1] [pt 2 2, pt 3 3])
      = some ([pt 1 1, pt 1 1], [pt 2 2, pt 3 3]) :=
  ⟨(match_orthoimages_deduplicated_on_miss f32_eq demo_env a_tif b_tif demo_fs
      [pt 11 2] [pt 21 2] (by rfl)).1 (by decide),
    (match_orthoimages_deduplicated_on_miss f32_eq demo_env a_tif b_tif demo_fs_dup_match
      [pt 1 1, pt 1 1] [pt 2 2, pt 3 3] (by rfl)).2
      (.match_file [pt 1 1, pt 1 1] [pt 2 2, pt 3 3]) (by decide)⟩

end DedupReturned

/-! ## The orchestrator -/

section MainClaims
variable {F B R T : Type} [One R] (feq : F → F → Bool) (E : Env F B) (M : MainEnv F B R T)

/-- C10: when both orthoimages can be opened and `match_orthoimages` returns fewer than
three correspondences, `main` aborts with `InsufficientCorrespondences`, raised by the
estimator, and prints neither the transform nor the inlier count. -/
theorem main_insufficient_correspondences (ortho1_name ortho2_name : Path) (fs : Files B)
    (b1 b2 : B) (m1 m2 : List (InterestPoint F))
    (h1 : fs ortho1_name = some b1) (h2 : fs ortho2_name = some b2)
    (hrun : (match_orthoimages feq E ortho1_name ortho2_name fs).1 = .ok (m1, m2))
    (hlen : m1.length = m2.length) (hfew : m1.length < 3) :
    (main feq E M ortho1_name ortho2_name fs).1 = .error .InsufficientCorrespondences ∧
    ∀ e ∈ (main feq E M ortho1_name ortho2_name fs).2.2, e.is_report = false := by
  have hemit := match_orthoimages_emits feq E (fun e => e.is_report = false)
    ortho1_name ortho2_name (fun _ h => h)
    (fun _ => rfl) rfl (fun _ => rfl) (fun _ => rfl) (fun _ => rfl) (fun _ => rfl) fs
  rcases hm : match_orthoimages feq E ortho1_name ortho2_name fs with ⟨r1, fs1, t1⟩
  rw [hm] at hrun hemit
  simp only at hrun hemit
  subst hrun
  have hnot : ¬ 3 ≤ m1.length := Nat.not_le_of_lt hfew
  unfold main
  simp only [bind, Run.bind, open_resource, h1, h2, hm, emit, or_throw,
    main_loop_eq M _ _ m1 m2 hlen, Run.pure, of_except, ransac, List.length_map, hnot,
    and_false, if_false, throw_error, List.append_nil, List.nil_append]
  refine ⟨trivial, ?_⟩
  intro e he
  simp only [List.mem_append, List.mem_singleton] at he
  rcases he with rfl | rfl | he | rfl | rfl
  · rfl
  · rfl
  · exact hemit e he
  · rfl
  · rfl

/-- Instance of `main_insufficient_correspondences`: the sample run yields a single
correspondence. -/
theorem main_insufficient_correspondences_witness :
    (main f32_eq demo_env demo_main_env a_tif b_tif demo_fs).1
      = .error .InsufficientCorrespondences ∧
    ∀ e ∈ (main f32_eq demo_env demo_main_env a_tif b_tif demo_fs).2.2,
      e.is_report = false :=
  main_insufficient_correspondences f32_eq demo_env demo_main_env a_tif b_tif demo_fs
    (.image 10) (.image 20) [pt 11 2] [pt 21 2] (by decide) (by decide) (by rfl)
    (by decide) (by decide)

end MainClaims

end AlignDem
